import Mathlib

/-!
Verification of the octopilot-pipeline-tools build engine, build contract,
promote-image and watch-deployment commands.

The Go sources are shallowly embedded: strings are Lean `String`s manipulated
through structural-recursive char-list helpers mirroring Go's `strings`
package, the engine's external effects (pack builds, registry operations, the
delegated Skaffold runner, the chart ref file) are an explicit oracle, and the
engine loop of `buildCmd.RunE` is a fold over the artifact list producing the
build contract, the in-memory built-images map, and a trace of dispatch
events.
-/

namespace OP

/-! ### Char-list string helpers (embedding of Go's `strings` package) -/

/-- Is the first list a prefix of the second (Go `strings.HasPrefix` on chars)? -/
def isPreList : List Char → List Char → Bool
  | [], _ => true
  | _ :: _, [] => false
  | p :: ps, x :: xs => p == x && isPreList ps xs

/-- Go `strings.Contains` on char lists. -/
def containsSub : List Char → List Char → Bool
  | [], pat => pat.isEmpty
  | x :: xs, pat => isPreList pat (x :: xs) || containsSub xs pat

/-- One fuel-indexed pass of Go `strings.ReplaceAll` on char lists. -/
def replFuel : Nat → List Char → List Char → List Char → List Char
  | 0, l, _, _ => l
  | _ + 1, [], _, _ => []
  | n + 1, x :: xs, pat, rep =>
    if !pat.isEmpty && isPreList pat (x :: xs) then
      rep ++ replFuel n ((x :: xs).drop pat.length) pat rep
    else
      x :: replFuel n xs pat rep

/-- Go `strings.ReplaceAll` on char lists. -/
def replaceAll (l pat rep : List Char) : List Char :=
  replFuel l.length l pat rep

/-- Chars before the first occurrence of `pat` (Go `strings.Split(l, pat)[0]`). -/
def beforeFirst : List Char → List Char → List Char
  | [], _ => []
  | x :: xs, pat => if !pat.isEmpty && isPreList pat (x :: xs) then [] else x :: beforeFirst xs pat

/-- Chars after the last occurrence of `c`; the whole list if `c` is absent. -/
def afterLastChar (l : List Char) (c : Char) : List Char :=
  (l.reverse.takeWhile (fun x => x != c)).reverse

/-- Index of the first element satisfying `p` (Go `strings.Index` flavor). -/
def listFindIdx : List Char → (Char → Bool) → Option Nat
  | [], _ => none
  | c :: cs, p => if p c then some 0 else (listFindIdx cs p).map (· + 1)

/-- ASCII whitespace test used by the embedding of Go `strings.TrimSpace`. -/
def isSpaceChar (c : Char) : Bool :=
  c == ' ' || c == '\t' || c == '\n' || c == '\r'

/-- Go `strings.TrimSpace` on char lists (ASCII whitespace). -/
def trimSpaceList (l : List Char) : List Char :=
  ((l.dropWhile isSpaceChar).reverse.dropWhile isSpaceChar).reverse

/-! String wrappers. -/

/-- Go `strings.HasPrefix`. -/
def hasPre (s pre : String) : Bool := isPreList pre.data s.data

/-- Go `strings.HasSuffix`. -/
def hasSuf (s suf : String) : Bool := isPreList suf.data.reverse s.data.reverse

/-- Go `strings.Contains`. -/
def containsStr (s pat : String) : Bool := containsSub s.data pat.data

/-- Go `strings.ReplaceAll`. -/
def strReplace (s pat rep : String) : String := String.mk (replaceAll s.data pat.data rep.data)

/-- Go `strings.TrimSpace`. -/
def trimSpace (s : String) : String := String.mk (trimSpaceList s.data)

/-- Go slice `s[:n]` (chars). -/
def strTake (s : String) (n : Nat) : String := String.mk (s.data.take n)

/-- Go slice `s[n:]` (chars). -/
def strDrop (s : String) (n : Nat) : String := String.mk (s.data.drop n)

/-- Go `strings.TrimPrefix`. -/
def trimPre (s pre : String) : String :=
  if hasPre s pre then strDrop s pre.data.length else s

/-- Go `strings.TrimSuffix`. -/
def trimSuf (s suf : String) : String :=
  if hasSuf s suf then strTake s (s.data.length - suf.data.length) else s

/-- Go `strings.Index` for a single char (byte-faithful on ASCII). -/
def firstIdxOf (s : String) (c : Char) : Option Nat :=
  listFindIdx s.data (fun x => x == c)

/-- Go `strings.LastIndex` for a single char (byte-faithful on ASCII). -/
def lastIdxOf (s : String) (c : Char) : Option Nat :=
  (listFindIdx s.data.reverse (fun x => x == c)).map (fun i => s.data.length - 1 - i)

/-- Go `strings.Split(s, "_linux_")[0]`, the piece before the first occurrence. -/
def splitFirstPart (s pat : String) : String := String.mk (beforeFirst s.data pat.data)

/-! ### Build contract (`internal/util/build_result.go`) -/

/-- One artifact record: `util.Build` / `util.BuildEntry`. -/
structure Build where
  imageName : String
  tag : String
deriving DecidableEq

/-- The contract read from `build_result.json`: `util.BuildResult`. -/
structure BuildResult where
  builds : List Build
deriving DecidableEq

/-- Errors returned by the contract selectors, carrying the data the Go code
formats into the error message. -/
inductive SelectErr
  | notFound (image : String) (available : List String)
  | noBuilds
deriving DecidableEq

/-- `util.GetTagForImage`: first exact `imageName` match, else an error that
enumerates the available image names. -/
def GetTagForImage (res : BuildResult) (imageName : String) : Except SelectErr String :=
  match res.builds.find? (fun b => b.imageName == imageName) with
  | some b => Except.ok b.tag
  | none => Except.error (.notFound imageName (res.builds.map (fun b => b.imageName)))

/-- `util.SelectTag`: by-name lookup when a name is given, otherwise the last
entry of the builds list. -/
def SelectTag (res : BuildResult) (imageName : String) : Except SelectErr String :=
  if imageName != "" then GetTagForImage res imageName
  else
    match res.builds.getLast? with
    | some b => Except.ok b.tag
    | none => Except.error .noBuilds

/-- Decidable equality for `Except`, used by concrete witness checks. -/
instance {e a : Type} [DecidableEq e] [DecidableEq a] : DecidableEq (Except e a) := fun x y =>
  match x, y with
  | Except.ok u, Except.ok v =>
    if h : u = v then isTrue (by rw [h]) else isFalse (fun hc => h (Except.ok.inj hc))
  | Except.error u, Except.error v =>
    if h : u = v then isTrue (by rw [h]) else isFalse (fun hc => h (Except.error.inj hc))
  | Except.ok _, Except.error _ => isFalse (fun hc => Except.noConfusion hc)
  | Except.error _, Except.ok _ => isFalse (fun hc => Except.noConfusion hc)

/-! ### promote-image (`promoteCmd.RunE`) -/

/-- The source/destination reference pair computed by `promoteCmd.RunE` from a
selected stored reference. -/
def promoteRefs (srcRepo destRepo fullRef : String) : String × String :=
  let imageRelPath :=
    if hasPre fullRef (srcRepo ++ "/") then trimPre fullRef (srcRepo ++ "/") else fullRef
  (fullRef, trimSuf destRepo "/" ++ "/" ++ imageRelPath)

/-- promote-image: select the stored reference from the contract, then form the
copy's source and destination references. -/
def promoteRun (srcRepo destRepo : String) (res : BuildResult) (imageName : String) :
    Except SelectErr (String × String) :=
  (SelectTag res imageName).map (fun fullRef => promoteRefs srcRepo destRepo fullRef)

/-! ### watch-deployment (`watchCmd.RunE`) -/

/-- `extractVersionTag`: strip anything after `@`, then take the substring
after the last `:`; the input unchanged if no `:` is found. -/
def extractVersionTag (fullRef : String) : String :=
  let ref :=
    match firstIdxOf fullRef '@' with
    | some i => strTake fullRef i
    | none => fullRef
  match lastIdxOf ref ':' with
  | some j => strDrop ref (j + 1)
  | none => fullRef

/-- Outcome of one poll iteration: the (discarded) reconcile result and the
image-query result. -/
structure WatchIter where
  reconcileOk : Bool
  image : Except String String

/-- The flag values the poll loop reads. -/
structure WatchParams where
  component : String
  nsName : String
  timeoutStr : String
  pollTimeout : String
deriving DecidableEq

/-- Errors the poll loop can return, carrying the data formatted into the
messages of `watchCmd.RunE`. -/
inductive WatchErr
  | timedOut (pollTimeout component versionTag : String)
  | rolloutFailed (component : String)
deriving DecidableEq

/-- The match test of the poll loop: non-empty image containing the version
tag or the full stored reference. -/
def watchMatch (currentImage versionTag fullRef : String) : Bool :=
  currentImage != "" && (containsStr currentImage versionTag || containsStr currentImage fullRef)

/-- Did this iteration's image query succeed with a matching image? An
erroring or empty query never matches. -/
def watchIterMatched (fullRef : String) (it : WatchIter) : Bool :=
  match it.image with
  | Except.ok img => watchMatch img (extractVersionTag fullRef) fullRef
  | Except.error _ => false

/-- The poll loop of `watchCmd.RunE`. `iters` gives each iteration's external
outcomes, `fuel` the remaining poll-ticks before the overall timeout context
expires (checked after each iteration's work, as the `select` does),
`rolloutOk` the result of the final `kubectl rollout status`. -/
def watchLoop (p : WatchParams) (fullRef : String) (iters : Nat → WatchIter)
    (rolloutOk : Bool) : Nat → Nat → Except WatchErr Unit
  | 0, i =>
    if watchIterMatched fullRef (iters i) then
      if rolloutOk then Except.ok () else Except.error (.rolloutFailed p.component)
    else Except.error (.timedOut p.pollTimeout p.component (extractVersionTag fullRef))
  | fuel + 1, i =>
    if watchIterMatched fullRef (iters i) then
      if rolloutOk then Except.ok () else Except.error (.rolloutFailed p.component)
    else watchLoop p fullRef iters rolloutOk fuel (i + 1)

/-! ### Engine data model (`buildCmd.RunE`, direct push path) -/

/-- Go map read (`v, ok := m[k]`): first binding wins, bindings are unique. -/
def envGet : List (String × String) → String → Option String
  | [], _ => none
  | p :: ps, k => if p.1 == k then some p.2 else envGet ps k

/-- Go map write (`m[k] = v`): replace the binding or append a fresh one. -/
def envSet : List (String × String) → String → String → List (String × String)
  | [], k, v => [(k, v)]
  | p :: ps, k, v => if p.1 == k then (k, v) :: ps else p :: envSet ps k v

/-- Go `strings.SplitN(e, "=", 2)`: a key/value pair when `e` contains `=`. -/
def splitKV (e : String) : Option (String × String) :=
  match firstIdxOf e '=' with
  | some i => some (strTake e i, strDrop e (i + 1))
  | none => none

/-- Overlay the artifact's `K=V` env strings onto a base env map, as the
`for _, env := range art.BuildpackArtifact.Env` loop does. -/
def overlayEnv (base : List (String × String)) (envs : List String) : List (String × String) :=
  envs.foldl
    (fun acc e =>
      match splitKV e with
      | some (k, v) => envSet acc k v
      | none => acc)
    base

/-- The version-bearing environment variables scanned by `buildCmd.RunE`. -/
def cleanEnvVars : List String :=
  ["DOCKER_METADATA_OUTPUT_VERSION", "SKAFFOLD_TAG", "VERSION", "TAG", "IMAGE_TAG"]

/-- One step of environment sanitation: strip a `_linux_` platform suffix and
capture the first non-empty (cleaned) value as the canonical version. -/
def sanitizeStep (st : List (String × String) × String) (key : String) :
    List (String × String) × String :=
  let env := st.1
  let targetVersion := st.2
  let val := (envGet env key).getD ""
  if val != "" then
    if containsStr val "_linux_" then
      let newVal := splitFirstPart val "_linux_"
      (envSet env key newVal, if targetVersion == "" then newVal else targetVersion)
    else (env, if targetVersion == "" then val else targetVersion)
  else (env, targetVersion)

/-- Environment sanitation: the rewritten environment and the captured
canonical version (empty when nothing was captured). -/
def sanitizeEnv (env : List (String × String)) : List (String × String) × String :=
  cleanEnvVars.foldl sanitizeStep (env, "")

/-- The canonical version captured by sanitation. -/
def capturedVersion (env : List (String × String)) : String := (sanitizeEnv env).2

/-- Artifact kind: mirrors the `BuildpackArtifact` / `DockerArtifact` pointers
of the Skaffold artifact record. -/
inductive ArtifactKind
  | buildpack (builder runImage : String) (env : List String)
  | docker (dockerfilePath : String)
  | other
deriving DecidableEq

/-- One declared artifact. -/
structure Artifact where
  imageName : String
  workspace : String
  kind : ArtifactKind
deriving DecidableEq

/-- The fields of `pack.BuildOptions` populated by the engine. -/
structure PackOptions where
  imageName : String
  builder : String
  path : String
  publish : Bool
  runImage : String
  target : String
  env : List (String × String)
  sbomDir : String
  insecureRegistries : List String
  volumes : List String
deriving DecidableEq

/-- The flag/option values `buildCmd.RunE` reads on the push path. -/
structure EngineConfig where
  cwd : String
  repo : String
  ttlUUID : String
  ttlTag : String
  platforms : List String
  insecureRegistries : List String
  caPath : String
  sbomDir : String
  version : String
deriving DecidableEq

/-- External effects: pack/docker build results, the chart ref file, registry
digests and the delegated Skaffold runner's results. -/
structure Oracle where
  packOk : PackOptions → Bool
  helmOutDir : String → String
  chartRef : String → Option String
  headDigest : String → Option String
  getOk : String → Bool
  writeIndexOk : String → Bool
  indexDigest : String → String
  dockerOk : String → Bool
  retagOk : String → Bool
  runnerResult : String → Except String (List Build)

/-- The fatal errors of the push path. -/
inductive BuildError
  | chartPackFailed (art : String)
  | chartRefRead (art : String)
  | packFailed (art platform : String)
  | headFailed (tag : String)
  | getFailed (tag : String)
  | writeIndexFailed (tag : String)
  | dockerFailed (art platform : String)
  | retagFailed (tag : String)
  | runnerFailed (art msg : String)
deriving DecidableEq

/-- Trace events: the externally observable dispatches of the engine, tagged
with the artifact that caused them. -/
inductive PushEvent
  | packDispatch (art : String) (opts : PackOptions)
  | dockerBuild (art platform tag : String)
  | writeIndex (art tag : String) (members : List String)
  | versionRetag (art versionTag : String)
  | propagationPoll (art tag : String)
  | delegateRun (art : String)
deriving DecidableEq

/-- Engine-loop state: the contract entries built so far, the in-memory
built-images map, and the event trace. -/
structure EngineState where
  built : List Build
  builtImages : List (String × String)
  events : List PushEvent
deriving DecidableEq

/-! ### Tag computation -/

/-- Go slice of `s` before the last `:` when its index is positive. -/
def stripAfterLastColon (s : String) : String :=
  match lastIdxOf s ':' with
  | some i => if 0 < i then strTake s i else s
  | none => s

/-- `deriveTTLSuffix`: the last hyphen-segment of the image name, after
stripping any tag and any path components. -/
def deriveTTLSuffix (imageName : String) : String :=
  let base := stripAfterLastColon imageName
  let base2 := String.mk (afterLastChar base.data '/')
  String.mk (afterLastChar base2.data '-')

/-- FullTag for the buildpack path: ttl.sh ephemeral tag, else
`repo/imageName:latest` (slash-aware), else `imageName:latest`. -/
def fullTagFor (cfg : EngineConfig) (imageName : String) : String :=
  if cfg.ttlUUID != "" then
    "ttl.sh/" ++ cfg.ttlUUID ++ "-" ++ deriveTTLSuffix imageName ++ ":" ++ cfg.ttlTag
  else if cfg.repo != "" then
    if hasSuf cfg.repo "/" then cfg.repo ++ imageName ++ ":latest"
    else cfg.repo ++ "/" ++ imageName ++ ":latest"
  else imageName ++ ":latest"

/-- FullTag for the multi-arch docker path (no empty-repo fallback). -/
def dockerFullTagFor (cfg : EngineConfig) (imageName : String) : String :=
  if cfg.ttlUUID != "" then
    "ttl.sh/" ++ cfg.ttlUUID ++ "-" ++ deriveTTLSuffix imageName ++ ":" ++ cfg.ttlTag
  else if hasSuf cfg.repo "/" then cfg.repo ++ imageName ++ ":latest"
  else cfg.repo ++ "/" ++ imageName ++ ":latest"

/-- Platform sanitization: every `/` replaced by `-`. -/
def sanitizePlatform (p : String) : String := strReplace p "/" "-"

/-- The fan-out list: the requested platforms, or `[""]` when none requested. -/
def targetPlatformsOf (platforms : List String) : List String :=
  if platforms.isEmpty then [""] else platforms

/-- The per-platform intermediate tag of the buildpack path. -/
def bpPlatformTag (tps : List String) (fullTag platform : String) : String :=
  if 1 < tps.length && platform != "" then fullTag ++ "-" ++ sanitizePlatform platform
  else fullTag

/-- The `localhost:5001` → `127.0.0.1:5001` dispatch rewrite; the Bool records
whether the loopback registry was involved. -/
def rewriteLocalhost (s : String) : String × Bool :=
  if containsStr s "localhost:5001" then (strReplace s "localhost:5001" "127.0.0.1:5001", true)
  else if containsStr s "127.0.0.1:5001" then (s, true)
  else (s, false)

/-- `filepath.Join(cwd, workspace)` (ASCII paths, no cleaning needed). -/
def joinPath (a b : String) : String := a ++ "/" ++ b

/-! ### The per-artifact engine steps -/

/-- The pack options of a chart dispatch (`publish=false`, helm OCI env keys,
output volume mount, run-image resolved through the built-images map). -/
def chartPackOpts (cfg : EngineConfig) (oracle : Oracle) (st : EngineState) (art : Artifact)
    (builder runImage0 : String) (envs : List String) : PackOptions :=
  let fullTag := fullTagFor cfg art.imageName
  let refBase := stripAfterLastColon fullTag
  let packEnv := overlayEnv
    [("BP_GO_PRIVATE", "github.com/octopilot/*"), ("BP_HELM_OCI_REF", refBase),
     ("BP_HELM_OCI_OUTPUT", "/out")] envs
  let runImage := (envGet st.builtImages runImage0).getD runImage0
  { imageName := fullTag, builder := builder, path := joinPath cfg.cwd art.workspace,
    publish := false, runImage := runImage, target := "", env := packEnv,
    sbomDir := cfg.sbomDir, insecureRegistries := cfg.insecureRegistries,
    volumes := [oracle.helmOutDir art.imageName ++ ":/out"] }

/-- The chart branch: one dispatch, read the ref file, record its trimmed
contents verbatim; no index assembly, no propagation poll. -/
def chartStep (cfg : EngineConfig) (oracle : Oracle) (st : EngineState) (art : Artifact)
    (builder runImage0 : String) (envs : List String) : Except BuildError EngineState :=
  let po := chartPackOpts cfg oracle st art builder runImage0 envs
  if oracle.packOk po then
    match oracle.chartRef art.imageName with
    | some content =>
      let chartRefVal := trimSpace content
      Except.ok
        { built := st.built ++ [⟨art.imageName, chartRefVal⟩],
          builtImages := envSet st.builtImages art.imageName chartRefVal,
          events := st.events ++ [.packDispatch art.imageName po] }
    | none => Except.error (.chartRefRead art.imageName)
  else Except.error (.chartPackFailed art.imageName)

/-- The pack options of one per-platform buildpack dispatch. -/
def bpDispatchOpts (cfg : EngineConfig) (path builder runImage fullTag : String)
    (packEnv : List (String × String)) (tps : List String) (platform : String) : PackOptions :=
  let currentTag := bpPlatformTag tps fullTag platform
  let rw1 := rewriteLocalhost currentTag
  let rw2 := rewriteLocalhost runImage
  let rewritten := rw1.2 || rw2.2
  let insecure :=
    if rewritten then cfg.insecureRegistries ++ ["127.0.0.1:5001"] else cfg.insecureRegistries
  let volumes :=
    if cfg.caPath != "" then [cfg.caPath ++ ":/etc/ssl/certs/registry-ca.crt:ro"] else []
  let env :=
    if cfg.caPath != "" then envSet packEnv "SSL_CERT_FILE" "/etc/ssl/certs/registry-ca.crt"
    else packEnv
  { imageName := rw1.1, builder := builder, path := path, publish := true,
    runImage := rw2.1, target := platform, env := env, sbomDir := cfg.sbomDir,
    insecureRegistries := insecure, volumes := volumes }

/-- The per-platform fan-out loop of the buildpack path: dispatch every
platform, recording the original (non-rewritten) per-platform tags. -/
def bpFold (cfg : EngineConfig) (oracle : Oracle)
    (artName path builder runImage fullTag : String) (packEnv : List (String × String))
    (tps : List String) :
    List String → List PushEvent → List String →
    Except BuildError (List PushEvent × List String)
  | [], evs, manifests => Except.ok (evs, manifests)
  | platform :: rest, evs, manifests =>
    let po := bpDispatchOpts cfg path builder runImage fullTag packEnv tps platform
    if oracle.packOk po then
      bpFold cfg oracle artName path builder runImage fullTag packEnv tps rest
        (evs ++ [.packDispatch artName po])
        (manifests ++ [bpPlatformTag tps fullTag platform])
    else Except.error (.packFailed artName platform)

/-- Final digest resolution: manifest-list assembly for a multi-platform
build, a `Head` on the full tag otherwise. -/
def bpDigestPhase (oracle : Oracle) (artName fullTag : String) (tps : List String)
    (manifests : List String) : Except BuildError (List PushEvent × String) :=
  if 1 < tps.length then
    match manifests.find? (fun t => !oracle.getOk t) with
    | some t => Except.error (.getFailed t)
    | none =>
      if oracle.writeIndexOk fullTag then
        Except.ok ([.writeIndex artName fullTag manifests], oracle.indexDigest fullTag)
      else Except.error (.writeIndexFailed fullTag)
  else
    match oracle.headDigest fullTag with
    | some d => Except.ok ([], d)
    | none => Except.error (.headFailed fullTag)

/-- Version re-tagging: gated on the engine's `DOCKER_METADATA_OUTPUT_VERSION`
value, with the version tag formed by `TrimSuffix(fullTag, "latest")+version`;
a failure is fatal. -/
def retagPhase (cfg : EngineConfig) (oracle : Oracle) (artName fullTag : String) :
    Except BuildError (List PushEvent) :=
  if cfg.version != "" then
    let versionTagStr := trimSuf fullTag "latest" ++ cfg.version
    if oracle.retagOk versionTagStr then Except.ok [.versionRetag artName versionTagStr]
    else Except.error (.retagFailed versionTagStr)
  else Except.ok []

/-- The non-chart buildpack branch. -/
def bpStep (cfg : EngineConfig) (oracle : Oracle) (st : EngineState) (art : Artifact)
    (builder runImage0 : String) (envs : List String) : Except BuildError EngineState :=
  let imageName := art.imageName
  let fullTag := fullTagFor cfg imageName
  let runImage := (envGet st.builtImages runImage0).getD runImage0
  let packEnv := overlayEnv [("BP_GO_PRIVATE", "github.com/octopilot/*")] envs
  let tps := targetPlatformsOf cfg.platforms
  let path := joinPath cfg.cwd art.workspace
  match bpFold cfg oracle imageName path builder runImage fullTag packEnv tps tps [] [] with
  | Except.error e => Except.error e
  | Except.ok (evs, manifests) =>
    match bpDigestPhase oracle imageName fullTag tps manifests with
    | Except.error e => Except.error e
    | Except.ok (evs2, digest) =>
      let fullTagWithDigest := fullTag ++ "@" ++ digest
      match retagPhase cfg oracle imageName fullTag with
      | Except.error e => Except.error e
      | Except.ok evs3 =>
        Except.ok
          { built := st.built ++ [⟨imageName, fullTagWithDigest⟩],
            builtImages := envSet st.builtImages imageName fullTagWithDigest,
            events := st.events ++ evs ++ evs2 ++ evs3
              ++ [.propagationPoll imageName fullTag] }

/-- The per-platform docker tag (full tag when ttl mode has one platform). -/
def dockerPlatformTag (cfg : EngineConfig) (fullTag platform : String) : String :=
  let t := fullTag ++ "-" ++ sanitizePlatform platform
  if cfg.ttlUUID != "" && cfg.platforms.length == 1 then fullTag else t

/-- The per-platform docker build loop. -/
def dockerFold (cfg : EngineConfig) (oracle : Oracle) (artName fullTag : String) :
    List String → List PushEvent → List String →
    Except BuildError (List PushEvent × List String)
  | [], evs, manifests => Except.ok (evs, manifests)
  | platform :: rest, evs, manifests =>
    let platformTag := dockerPlatformTag cfg fullTag platform
    if oracle.dockerOk platformTag then
      dockerFold cfg oracle artName fullTag rest
        (evs ++ [.dockerBuild artName platform platformTag]) (manifests ++ [platformTag])
    else Except.error (.dockerFailed artName platform)

/-- The multi-arch docker branch: per-platform builds, unconditional
manifest-list assembly, version re-tag, propagation poll. -/
def dockerStep (cfg : EngineConfig) (oracle : Oracle) (st : EngineState) (art : Artifact) :
    Except BuildError EngineState :=
  let imageName := art.imageName
  let fullTag := dockerFullTagFor cfg imageName
  match dockerFold cfg oracle imageName fullTag cfg.platforms [] [] with
  | Except.error e => Except.error e
  | Except.ok (evs, manifests) =>
    match manifests.find? (fun t => !oracle.getOk t) with
    | some t => Except.error (.getFailed t)
    | none =>
      if oracle.writeIndexOk fullTag then
        let digest := oracle.indexDigest fullTag
        let fullTagWithDigest := fullTag ++ "@" ++ digest
        match retagPhase cfg oracle imageName fullTag with
        | Except.error e => Except.error e
        | Except.ok evs3 =>
          Except.ok
            { built := st.built ++ [⟨imageName, fullTagWithDigest⟩],
              builtImages := envSet st.builtImages imageName fullTagWithDigest,
              events := st.events ++ evs ++ [.writeIndex imageName fullTag manifests]
                ++ evs3 ++ [.propagationPoll imageName fullTag] }
      else Except.error (.writeIndexFailed fullTag)

/-- Delegation to the Skaffold runner: every returned tag is recorded
verbatim, followed by a propagation poll. -/
def delegateStep (oracle : Oracle) (st : EngineState) (art : Artifact) :
    Except BuildError EngineState :=
  match oracle.runnerResult art.imageName with
  | Except.error msg => Except.error (.runnerFailed art.imageName msg)
  | Except.ok results =>
    Except.ok
      { built := st.built ++ results,
        builtImages := results.foldl (fun m b => envSet m b.imageName b.tag) st.builtImages,
        events := st.events ++ [.delegateRun art.imageName]
          ++ results.map (fun b => .propagationPoll art.imageName b.tag) }

/-- One iteration of the push-path artifact loop, dispatching on kind. -/
def buildStep (cfg : EngineConfig) (oracle : Oracle) (st : EngineState) (art : Artifact) :
    Except BuildError EngineState :=
  match art.kind with
  | .buildpack builder runImage0 envs =>
    if hasSuf art.imageName "-chart" then chartStep cfg oracle st art builder runImage0 envs
    else bpStep cfg oracle st art builder runImage0 envs
  | .docker _ =>
    if 1 < cfg.platforms.length || cfg.ttlUUID != "" then dockerStep cfg oracle st art
    else delegateStep oracle st art
  | .other => delegateStep oracle st art

/-- The artifact loop from a given state. -/
def runFrom (cfg : EngineConfig) (oracle : Oracle) :
    EngineState → List Artifact → Except BuildError EngineState
  | st, [] => Except.ok st
  | st, art :: rest =>
    match buildStep cfg oracle st art with
    | Except.error e => Except.error e
    | Except.ok st' => runFrom cfg oracle st' rest

/-- The push-path engine: the whole artifact loop from the empty state. -/
def runEngine (cfg : EngineConfig) (oracle : Oracle) (arts : List Artifact) :
    Except BuildError EngineState :=
  runFrom cfg oracle ⟨[], [], []⟩ arts

/-- `writeBuildResult`: the contract file contents, written only on success
and only when at least one entry was built. -/
def writtenContract (r : Except BuildError EngineState) : Option (List Build) :=
  match r with
  | Except.ok st => if st.built.isEmpty then none else some st.built
  | Except.error _ => none

/-- The engine config derived from a process environment: sanitation runs
first, then the re-tag version is read back from the (possibly rewritten)
`DOCKER_METADATA_OUTPUT_VERSION`. -/
def cfgFromEnv (cfg0 : EngineConfig) (env : List (String × String)) : EngineConfig :=
  { cfg0 with version := (envGet (sanitizeEnv env).1 "DOCKER_METADATA_OUTPUT_VERSION").getD "" }

/-- The engine run including environment sanitation. -/
def engineFromEnv (cfg0 : EngineConfig) (env : List (String × String)) (oracle : Oracle)
    (arts : List Artifact) : Except BuildError EngineState :=
  runEngine (cfgFromEnv cfg0 env) oracle arts

/-! ### The stored-reference shape of the spec -/

/-- Lower-case hex digit. -/
def isHexCharB (c : Char) : Bool :=
  (48 ≤ c.toNat && c.toNat ≤ 57) || (97 ≤ c.toNat && c.toNat ≤ 102)

/-- Exactly 64 hex digits. -/
def isHex64 (s : String) : Bool := s.data.length == 64 && s.data.all isHexCharB

/-- A digest of the form `sha256:<hex64>`. -/
def isDigestStr (d : String) : Bool := hasPre d "sha256:" && isHex64 (strDrop d 7)

/-- Number of occurrences of a char. -/
def countChar (s : String) (c : Char) : Nat := s.data.countP (fun x => x == c)

/-- The tag-reference part `<registry>/<path>:<tag>`: a non-empty registry
before the first `/`, a non-empty remainder whose last `:` splits a non-empty
path tail from a non-empty tag. -/
def tagRefWellFormed (pre : String) : Bool :=
  match firstIdxOf pre '/' with
  | none => false
  | some i =>
    let registry := strTake pre i
    let rest := strDrop pre (i + 1)
    registry != "" && rest != "" &&
      (match lastIdxOf rest ':' with
       | none => false
       | some j => strTake rest j != "" && strDrop rest (j + 1) != "")

/-- The spec's stored-reference shape
`<registry>/<path>:<tag>@sha256:<hex64>` with exactly one `@`. -/
def matchesStoredRefShape (s : String) : Bool :=
  countChar s '@' == 1 &&
    (match firstIdxOf s '@' with
     | none => false
     | some i => tagRefWellFormed (strTake s i) && isDigestStr (strDrop s (i + 1)))

/-- A well-formed, `@`-free tag reference (the shape of a good FullTag). -/
def preShapeOk (pre : String) : Bool := tagRefWellFormed pre && countChar pre '@' == 0

/-! ### Derived observations on engine runs -/

/-- Does one of the artifact's `K=V` env strings declare the key `k`? -/
def declaresKey (envs : List String) (k : String) : Bool :=
  envs.any (fun e =>
    match splitKV e with
    | some p => p.1 == k
    | none => false)

/-- Is this a version-retag event? -/
def isRetagEv : PushEvent → Bool
  | .versionRetag _ _ => true
  | _ => false

/-- The version-retag events of a trace. -/
def retagEventsIn (evs : List PushEvent) : List PushEvent := evs.filter isRetagEv

/-- The pack dispatches recorded for a given artifact. -/
def packDispatchesFor (nm : String) (evs : List PushEvent) : List PackOptions :=
  evs.filterMap (fun ev =>
    match ev with
    | .packDispatch n po => if n == nm then some po else none
    | _ => none)

/-- The platform targets of an artifact's pack dispatches. -/
def packTargetsFor (nm : String) (evs : List PushEvent) : List String :=
  (packDispatchesFor nm evs).map (fun po => po.target)

/-- The run-image values of an artifact's pack dispatches. -/
def packRunImagesFor (nm : String) (evs : List PushEvent) : List String :=
  (packDispatchesFor nm evs).map (fun po => po.runImage)

/-- Does the engine build this artifact on a direct (buildpack or multi-arch
docker) path, as opposed to delegating it to the Skaffold runner? -/
def isDirectPath (cfg : EngineConfig) (art : Artifact) : Bool :=
  match art.kind with
  | .buildpack _ _ _ => !hasSuf art.imageName "-chart"
  | .docker _ => 1 < cfg.platforms.length || cfg.ttlUUID != ""
  | .other => false

/-- The full tag a direct-path build of this artifact publishes to. -/
def directFullTag (cfg : EngineConfig) (art : Artifact) : String :=
  match art.kind with
  | .buildpack _ _ _ => fullTagFor cfg art.imageName
  | _ => dockerFullTagFor cfg art.imageName

/-- The `DOCKER_METADATA_OUTPUT_VERSION` value the engine reads back after
sanitation. -/
def sanitizedDockerVersion (env : List (String × String)) : String :=
  (envGet (sanitizeEnv env).1 "DOCKER_METADATA_OUTPUT_VERSION").getD ""

/-- The events a successful non-chart buildpack step appends. -/
def bpAddedEvents (cfg : EngineConfig) (st : EngineState) (art : Artifact)
    (builder runImage0 : String) (envs : List String) : List PushEvent :=
  let imageName := art.imageName
  let fullTag := fullTagFor cfg imageName
  let runImage := (envGet st.builtImages runImage0).getD runImage0
  let packEnv := overlayEnv [("BP_GO_PRIVATE", "github.com/octopilot/*")] envs
  let tps := targetPlatformsOf cfg.platforms
  let path := joinPath cfg.cwd art.workspace
  tps.map (fun pl =>
      PushEvent.packDispatch imageName
        (bpDispatchOpts cfg path builder runImage fullTag packEnv tps pl))
    ++ (if 1 < tps.length then
          [PushEvent.writeIndex imageName fullTag (tps.map (bpPlatformTag tps fullTag))]
        else [])
    ++ (if cfg.version != "" then
          [PushEvent.versionRetag imageName (trimSuf fullTag "latest" ++ cfg.version)]
        else [])
    ++ [PushEvent.propagationPoll imageName fullTag]

/-- The events a successful multi-arch docker step appends. -/
def dockerAddedEvents (cfg : EngineConfig) (art : Artifact) : List PushEvent :=
  let imageName := art.imageName
  let fullTag := dockerFullTagFor cfg imageName
  let manifests := cfg.platforms.map (dockerPlatformTag cfg fullTag)
  cfg.platforms.map (fun pl =>
      PushEvent.dockerBuild imageName pl (dockerPlatformTag cfg fullTag pl))
    ++ [PushEvent.writeIndex imageName fullTag manifests]
    ++ (if cfg.version != "" then
          [PushEvent.versionRetag imageName (trimSuf fullTag "latest" ++ cfg.version)]
        else [])
    ++ [PushEvent.propagationPoll imageName fullTag]

/-- Trace of an engine run (empty on failure). -/
def eventsOf (r : Except BuildError EngineState) : List PushEvent :=
  match r with
  | Except.ok st => st.events
  | Except.error _ => []

/-- Built-images map of an engine run (empty on failure). -/
def builtImagesOf (r : Except BuildError EngineState) : List (String × String) :=
  match r with
  | Except.ok st => st.builtImages
  | Except.error _ => []

/-! ### Concrete instances for witnesses and counterexamples -/

/-- A fixed well-formed digest. -/
def dgA : String := "sha256:aaaaaaaaaaaaaaaaaaaaaaaaaaaaaaaaaaaaaaaaaaaaaaaaaaaaaaaaaaaaaaaa"

/-- A benign oracle: every operation succeeds, every digest is `dgA`. -/
def oracleW : Oracle :=
  { packOk := fun _ => true, helmOutDir := fun _ => "/tmp/op-helm-out",
    chartRef := fun _ => none, headDigest := fun _ => some dgA, getOk := fun _ => true,
    writeIndexOk := fun _ => true, indexDigest := fun _ => dgA, dockerOk := fun _ => true,
    retagOk := fun _ => true, runnerResult := fun _ => Except.error "not delegated" }

/-- A push-path configuration against `reg.io`. -/
def cfgW : EngineConfig :=
  { cwd := "/src", repo := "reg.io", ttlUUID := "", ttlTag := "1h", platforms := [],
    insecureRegistries := [], caPath := "", sbomDir := "", version := "" }

/-- A buildpack artifact named `app`. -/
def artApp : Artifact :=
  { imageName := "app", workspace := "app", kind := .buildpack "bldr" "" [] }

/-- The state of the successful one-artifact run used by several witnesses. -/
def stW : EngineState := (runEngine cfgW oracleW [artApp]).toOption.getD ⟨[], [], []⟩

/-- A docker artifact, single-platform, hence delegated to the runner. -/
def artDockerApp : Artifact :=
  { imageName := "app", workspace := "app", kind := .docker "Dockerfile" }

/-- A runner returning a tag without a digest. -/
def oracleDeleg : Oracle :=
  { oracleW with runnerResult := fun _ => Except.ok [⟨"app", "reg.io/app:latest"⟩] }

/-- A successful run whose contract entry carries no digest. -/
def runDeleg : Except BuildError EngineState := runEngine cfgW oracleDeleg [artDockerApp]

/-- The loopback-registry configuration. -/
def cfgLocal : EngineConfig := { cfgW with repo := "localhost:5001" }

/-- A base-image artifact. -/
def artBase : Artifact :=
  { imageName := "base", workspace := "base", kind := .buildpack "bldr" "" [] }

/-- An artifact whose run image names `base` symbolically. -/
def artAppOnBase : Artifact :=
  { imageName := "app", workspace := "app", kind := .buildpack "bldr" "base" [] }

/-- State after building `base` against the loopback registry. -/
def stLocalBase : EngineState :=
  (runEngine cfgLocal oracleW [artBase]).toOption.getD ⟨[], [], []⟩

/-- State after additionally building `app` against the loopback registry. -/
def stLocalApp : EngineState :=
  (buildStep cfgLocal oracleW stLocalBase artAppOnBase).toOption.getD ⟨[], [], []⟩

/-- An environment carrying a version in `VERSION` only. -/
def envV : List (String × String) := [("VERSION", "v1.2.3")]

/-- The engine run under `envV`. -/
def runEnvV : Except BuildError EngineState := engineFromEnv cfgW envV oracleW [artApp]

/-- A chart artifact without env overrides. -/
def artChart : Artifact :=
  { imageName := "my-chart", workspace := "chart", kind := .buildpack "bldr" "" [] }

/-- The ref file a chart buildpack wrote (with surrounding whitespace). -/
def chartContentW : String := " reg.io/charts/my-chart:1.2.3@" ++ dgA ++ "\n"

/-- The benign oracle with a chart ref file present. -/
def oracleChartW : Oracle := { oracleW with chartRef := fun _ => some chartContentW }

/-- A chart artifact whose declared env overrides `BP_HELM_OCI_REF`. -/
def artChartEvil : Artifact :=
  { imageName := "x-chart", workspace := "chart",
    kind := .buildpack "bldr" "" ["BP_HELM_OCI_REF=oci://evil"] }

/-- The run of the overriding chart artifact. -/
def runChartEvil : Except BuildError EngineState := runEngine cfgW oracleChartW [artChartEvil]

/-- An oracle whose pack builds fail. -/
def oracleFail : Oracle := { oracleW with packOk := fun _ => false }

/-- An environment carrying a platform-suffixed metadata version. -/
def envD : List (String × String) := [("DOCKER_METADATA_OUTPUT_VERSION", "v0.0.34_linux_arm64")]

/-- State after one buildpack step under `envD`. -/
def stD : EngineState :=
  (buildStep (cfgFromEnv cfgW envD) oracleW ⟨[], [], []⟩ artApp).toOption.getD ⟨[], [], []⟩

/-- A two-entry contract (base image first, application image last). -/
def resW : BuildResult :=
  { builds := [⟨"base", "ghcr.io/dev/base:v1@sha256:bbb"⟩,
               ⟨"app", "ghcr.io/dev/app:v1@sha256:abc"⟩] }

/-- Watch iterations: a failing query first, then a matching image. -/
def itersW : Nat → WatchIter := fun n =>
  if n == 0 then ⟨true, Except.error "connection refused"⟩
  else ⟨false, Except.ok "ghcr.io/x/op:v1.2.3@sha256:bbb"⟩

/-- Watch parameters. -/
def watchPW : WatchParams :=
  { component := "op", nsName := "default", timeoutStr := "30m", pollTimeout := "10m0s" }

/-! ### Basic lemmas about the helpers -/

theorem isPreList_append (p r : List Char) : isPreList p (p ++ r) = true := by
  induction p with
  | nil => rfl
  | cons c cs ih => simp [isPreList, ih]

theorem hasPre_append (pre rest : String) : hasPre (pre ++ rest) pre = true := by
  simp only [hasPre, String.data_append]
  exact isPreList_append pre.data rest.data

theorem string_data_inj (a b : String) (h : a.data = b.data) : a = b := by
  cases a; cases b; exact congrArg String.mk h

theorem strDrop_append (pre rest : String) :
    strDrop (pre ++ rest) pre.data.length = rest := by
  apply string_data_inj
  simp only [strDrop, String.data_append, List.drop_left]

theorem trimPre_append (pre rest : String) : trimPre (pre ++ rest) pre = rest := by
  rw [trimPre, hasPre_append]
  simp only [if_pos]
  exact strDrop_append pre rest

theorem hasSuf_append (a b : String) : hasSuf (a ++ b) b = true := by
  simp only [hasSuf, String.data_append, List.reverse_append]
  exact isPreList_append b.data.reverse a.data.reverse

theorem trimSuf_append (a b : String) : trimSuf (a ++ b) b = a := by
  rw [trimSuf, hasSuf_append]
  simp only [if_pos]
  apply string_data_inj
  simp only [strTake, String.data_append, List.length_append]
  have h : a.data.length + b.data.length - b.data.length = a.data.length := by omega
  rw [h, List.take_left]

theorem append_ne_self_of_ne_empty (a b : String) (hb : b.data.length ≠ 0) :
    a ++ b ≠ a := by
  intro h
  have hd : (a ++ b).data = a.data := by rw [h]
  rw [String.data_append] at hd
  have : a.data.length + b.data.length = a.data.length := by
    conv_rhs => rw [← hd]
    simp [List.length_append]
  omega

/-! ### Map lemmas -/

theorem envGet_envSet (m : List (String × String)) (k v n : String) :
    envGet (envSet m k v) n = if n = k then some v else envGet m n := by
  induction m with
  | nil =>
    by_cases h : n = k
    · subst h; simp [envSet, envGet]
    · have hk : (k == n) = false := beq_eq_false_iff_ne.mpr (fun e => h e.symm)
      simp [envSet, envGet, hk, h]
  | cons p ps ih =>
    by_cases hpk : p.1 = k
    · have hb : (p.1 == k) = true := beq_iff_eq.mpr hpk
      by_cases hnk : n = k
      · subst hnk; simp [envSet, envGet, hb]
      · have hkn : (k == n) = false := beq_eq_false_iff_ne.mpr (fun e => hnk e.symm)
        have hpn : (p.1 == n) = false := by
          rw [hpk]; exact hkn
        simp [envSet, envGet, hb, hkn, hpn, hnk]
    · have hb : (p.1 == k) = false := beq_eq_false_iff_ne.mpr hpk
      by_cases hpn : p.1 = n
      · have hb2 : (p.1 == n) = true := beq_iff_eq.mpr hpn
        have hnk : ¬ n = k := fun e => hpk (hpn.trans e)
        simp [envSet, envGet, hb, hb2, hnk]
      · have hb2 : (p.1 == n) = false := beq_eq_false_iff_ne.mpr hpn
        simp [envSet, envGet, hb, hb2, ih]

theorem overlayEnv_not_declared (envs : List String) (base : List (String × String)) (k : String)
    (h : declaresKey envs k = false) :
    envGet (overlayEnv base envs) k = envGet base k := by
  induction envs generalizing base with
  | nil => rfl
  | cons e es ih =>
    rw [declaresKey, List.any_cons, Bool.or_eq_false_iff] at h
    obtain ⟨h1, h2⟩ := h
    cases hkv : splitKV e with
    | none =>
      have step : overlayEnv base (e :: es) = overlayEnv base es := by
        simp [overlayEnv, List.foldl_cons, hkv]
      rw [step]
      exact ih base h2
    | some p =>
      obtain ⟨k1, v1⟩ := p
      rw [hkv] at h1
      have hk1 : k1 ≠ k := by
        intro e1
        simp [e1] at h1
      have step : overlayEnv base (e :: es) = overlayEnv (envSet base k1 v1) es := by
        simp [overlayEnv, List.foldl_cons, hkv]
      rw [step, ih (envSet base k1 v1) h2, envGet_envSet,
        if_neg (fun e1 => hk1 e1.symm)]

theorem envGet_foldl_envSet (rs : List Build) (m : List (String × String)) (n t : String)
    (h : envGet (rs.foldl (fun acc b => envSet acc b.imageName b.tag) m) n = some t) :
    envGet m n = some t ∨ ∃ b ∈ rs, n = b.imageName ∧ t = b.tag := by
  induction rs generalizing m with
  | nil => exact Or.inl h
  | cons b rs ih =>
    rw [List.foldl_cons] at h
    rcases ih (envSet m b.imageName b.tag) h with h' | ⟨b', hb', he⟩
    · rw [envGet_envSet] at h'
      by_cases hn : n = b.imageName
      · right
        refine ⟨b, List.mem_cons_self b rs, hn, ?_⟩
        rw [if_pos hn] at h'
        exact (Option.some.injEq _ _ ▸ h').symm
      · rw [if_neg hn] at h'
        exact Or.inl h'
    · exact Or.inr ⟨b', List.mem_cons_of_mem b hb', he⟩

/-! ### Fold and phase characterizations -/

theorem bpFold_ok (cfg : EngineConfig) (oracle : Oracle)
    (nm path builder runImage fullTag : String) (packEnv : List (String × String))
    (tps : List String) :
    ∀ (pls : List String) (evs : List PushEvent) (ms : List String)
      (evs' : List PushEvent) (ms' : List String),
      bpFold cfg oracle nm path builder runImage fullTag packEnv tps pls evs ms =
        Except.ok (evs', ms') →
      evs' = evs ++ pls.map (fun pl => PushEvent.packDispatch nm
          (bpDispatchOpts cfg path builder runImage fullTag packEnv tps pl)) ∧
      ms' = ms ++ pls.map (fun pl => bpPlatformTag tps fullTag pl) := by
  intro pls
  induction pls with
  | nil =>
    intro evs ms evs' ms' h
    simp only [bpFold] at h
    injection h with h
    injection h with h1 h2
    simp [h1, h2]
  | cons pl rest ih =>
    intro evs ms evs' ms' h
    simp only [bpFold] at h
    by_cases hok :
        oracle.packOk (bpDispatchOpts cfg path builder runImage fullTag packEnv tps pl) = true
    · rw [if_pos hok] at h
      obtain ⟨h1, h2⟩ := ih _ _ _ _ h
      constructor
      · rw [h1]; simp
      · rw [h2]; simp
    · rw [Bool.not_eq_true] at hok
      rw [hok] at h
      simp at h

theorem dockerFold_ok (cfg : EngineConfig) (oracle : Oracle) (nm fullTag : String) :
    ∀ (pls : List String) (evs : List PushEvent) (ms : List String)
      (evs' : List PushEvent) (ms' : List String),
      dockerFold cfg oracle nm fullTag pls evs ms = Except.ok (evs', ms') →
      evs' = evs ++ pls.map (fun pl =>
          PushEvent.dockerBuild nm pl (dockerPlatformTag cfg fullTag pl)) ∧
      ms' = ms ++ pls.map (fun pl => dockerPlatformTag cfg fullTag pl) := by
  intro pls
  induction pls with
  | nil =>
    intro evs ms evs' ms' h
    simp only [dockerFold] at h
    injection h with h
    injection h with h1 h2
    simp [h1, h2]
  | cons pl rest ih =>
    intro evs ms evs' ms' h
    simp only [dockerFold] at h
    by_cases hok : oracle.dockerOk (dockerPlatformTag cfg fullTag pl) = true
    · rw [if_pos hok] at h
      obtain ⟨h1, h2⟩ := ih _ _ _ _ h
      constructor
      · rw [h1]; simp
      · rw [h2]; simp
    · rw [Bool.not_eq_true] at hok
      rw [hok] at h
      simp at h

theorem bpDigestPhase_ok (oracle : Oracle) (nm fullTag : String) (tps ms : List String)
    (evs2 : List PushEvent) (d : String)
    (h : bpDigestPhase oracle nm fullTag tps ms = Except.ok (evs2, d)) :
    (1 < tps.length ∧ evs2 = [PushEvent.writeIndex nm fullTag ms] ∧
      d = oracle.indexDigest fullTag) ∨
    (¬ 1 < tps.length ∧ evs2 = [] ∧ oracle.headDigest fullTag = some d) := by
  by_cases hl : 1 < tps.length
  · left
    rw [bpDigestPhase, if_pos hl] at h
    cases hfind : ms.find? (fun t => !oracle.getOk t) with
    | some t => rw [hfind] at h; simp at h
    | none =>
      rw [hfind] at h
      by_cases hw : oracle.writeIndexOk fullTag = true
      · rw [if_pos hw] at h
        injection h with h
        injection h with h1 h2
        exact ⟨hl, h1.symm, h2.symm⟩
      · rw [Bool.not_eq_true] at hw
        rw [hw] at h
        simp at h
  · right
    rw [bpDigestPhase, if_neg hl] at h
    cases hh : oracle.headDigest fullTag with
    | some dd =>
      rw [hh] at h
      injection h with h
      injection h with h1 h2
      exact ⟨hl, h1.symm, by rw [h2]⟩
    | none => rw [hh] at h; simp at h

theorem retagPhase_ok (cfg : EngineConfig) (oracle : Oracle) (nm fullTag : String)
    (evs3 : List PushEvent) (h : retagPhase cfg oracle nm fullTag = Except.ok evs3) :
    evs3 = if cfg.version != "" then
        [PushEvent.versionRetag nm (trimSuf fullTag "latest" ++ cfg.version)]
      else [] := by
  rw [retagPhase] at h
  by_cases hv : (cfg.version != "") = true
  · simp only [hv, if_true] at h ⊢
    by_cases hr : oracle.retagOk (trimSuf fullTag "latest" ++ cfg.version) = true
    · rw [if_pos hr] at h
      injection h with h
      exact h.symm
    · rw [Bool.not_eq_true] at hr
      rw [hr] at h
      simp at h
  · rw [Bool.not_eq_true] at hv
    simp only [hv] at h ⊢
    simp only [Bool.false_eq_true, if_false] at h ⊢
    injection h with h
    exact h.symm

/-! ### Step characterizations -/

theorem chartStep_ok (cfg : EngineConfig) (oracle : Oracle) (st : EngineState) (art : Artifact)
    (builder runImage0 : String) (envs : List String) (st' : EngineState)
    (h : chartStep cfg oracle st art builder runImage0 envs = Except.ok st') :
    ∃ content, oracle.chartRef art.imageName = some content ∧
      st' = { built := st.built ++ [⟨art.imageName, trimSpace content⟩],
              builtImages := envSet st.builtImages art.imageName (trimSpace content),
              events := st.events ++ [PushEvent.packDispatch art.imageName
                (chartPackOpts cfg oracle st art builder runImage0 envs)] } := by
  simp only [chartStep] at h
  by_cases hok :
      oracle.packOk (chartPackOpts cfg oracle st art builder runImage0 envs) = true
  · rw [if_pos hok] at h
    cases hc : oracle.chartRef art.imageName with
    | some content =>
      rw [hc] at h
      injection h with h
      exact ⟨content, rfl, h.symm⟩
    | none => rw [hc] at h; simp at h
  · rw [Bool.not_eq_true] at hok
    rw [hok] at h
    simp at h

theorem bpStep_ok (cfg : EngineConfig) (oracle : Oracle) (st : EngineState) (art : Artifact)
    (builder runImage0 : String) (envs : List String) (st' : EngineState)
    (h : bpStep cfg oracle st art builder runImage0 envs = Except.ok st') :
    ∃ digest,
      (oracle.headDigest (fullTagFor cfg art.imageName) = some digest ∨
        digest = oracle.indexDigest (fullTagFor cfg art.imageName)) ∧
      st'.built = st.built ++ [⟨art.imageName, fullTagFor cfg art.imageName ++ "@" ++ digest⟩] ∧
      st'.builtImages = envSet st.builtImages art.imageName
        (fullTagFor cfg art.imageName ++ "@" ++ digest) ∧
      st'.events = st.events ++ bpAddedEvents cfg st art builder runImage0 envs := by
  simp only [bpStep] at h
  split at h
  · simp at h
  next evs manifests hf =>
    split at h
    · simp at h
    next evs2 digest hd =>
      split at h
      · simp at h
      next evs3 hr =>
        injection h with h
        obtain ⟨he, hm⟩ := bpFold_ok cfg oracle art.imageName (joinPath cfg.cwd art.workspace)
          builder ((envGet st.builtImages runImage0).getD runImage0)
          (fullTagFor cfg art.imageName)
          (overlayEnv [("BP_GO_PRIVATE", "github.com/octopilot/*")] envs)
          (targetPlatformsOf cfg.platforms) (targetPlatformsOf cfg.platforms) [] [] evs
          manifests hf
        have hr' := retagPhase_ok cfg oracle art.imageName (fullTagFor cfg art.imageName) evs3 hr
        rcases bpDigestPhase_ok oracle art.imageName (fullTagFor cfg art.imageName)
            (targetPlatformsOf cfg.platforms) manifests evs2 digest hd with
          ⟨hl, h2, h3⟩ | ⟨hl, h2, h3⟩
        · refine ⟨digest, Or.inr h3, ?_, ?_, ?_⟩
          · rw [← h]
          · rw [← h]
          · rw [← h]
            simp only [bpAddedEvents, if_pos hl]
            rw [he, hr', h2, hm]
            simp [List.append_assoc]
        · refine ⟨digest, Or.inl h3, ?_, ?_, ?_⟩
          · rw [← h]
          · rw [← h]
          · rw [← h]
            simp only [bpAddedEvents, if_neg hl]
            rw [he, hr', h2]
            simp [List.append_assoc]

theorem dockerStep_ok (cfg : EngineConfig) (oracle : Oracle) (st : EngineState) (art : Artifact)
    (st' : EngineState) (h : dockerStep cfg oracle st art = Except.ok st') :
    st'.built = st.built ++ [⟨art.imageName,
        dockerFullTagFor cfg art.imageName ++ "@"
          ++ oracle.indexDigest (dockerFullTagFor cfg art.imageName)⟩] ∧
    st'.builtImages = envSet st.builtImages art.imageName
      (dockerFullTagFor cfg art.imageName ++ "@"
        ++ oracle.indexDigest (dockerFullTagFor cfg art.imageName)) ∧
    st'.events = st.events ++ dockerAddedEvents cfg art := by
  simp only [dockerStep] at h
  split at h
  · simp at h
  next evs manifests hf =>
    split at h
    · simp at h
    next hfind =>
      by_cases hw : oracle.writeIndexOk (dockerFullTagFor cfg art.imageName) = true
      · rw [if_pos hw] at h
        split at h
        · simp at h
        next evs3 hr =>
          injection h with h
          obtain ⟨he, hm⟩ := dockerFold_ok cfg oracle art.imageName
            (dockerFullTagFor cfg art.imageName) cfg.platforms [] [] evs manifests hf
          have hr' := retagPhase_ok cfg oracle art.imageName
            (dockerFullTagFor cfg art.imageName) evs3 hr
          refine ⟨?_, ?_, ?_⟩
          · rw [← h]
          · rw [← h]
          · rw [← h]
            simp only [dockerAddedEvents]
            rw [he, hr', hm]
            simp [List.append_assoc]
      · rw [Bool.not_eq_true] at hw
        rw [hw] at h
        simp at h

theorem delegateStep_ok (oracle : Oracle) (st : EngineState) (art : Artifact) (st' : EngineState)
    (h : delegateStep oracle st art = Except.ok st') :
    ∃ results, oracle.runnerResult art.imageName = Except.ok results ∧
      st'.built = st.built ++ results ∧
      st'.builtImages = results.foldl (fun m b => envSet m b.imageName b.tag) st.builtImages ∧
      st'.events = st.events ++ [PushEvent.delegateRun art.imageName]
        ++ results.map (fun b => PushEvent.propagationPoll art.imageName b.tag) := by
  simp only [delegateStep] at h
  split at h
  · simp at h
  next results hr =>
    injection h with h
    refine ⟨results, hr, ?_, ?_, ?_⟩
    · rw [← h]
    · rw [← h]
    · rw [← h]

/-! ### Shape lemmas -/

theorem isPreList_take (p l : List Char) (h : isPreList p l = true) : l.take p.length = p := by
  induction p generalizing l with
  | nil => simp
  | cons c cs ih =>
    cases l with
    | nil => simp [isPreList] at h
    | cons x xs =>
      simp only [isPreList, Bool.and_eq_true, beq_iff_eq] at h
      obtain ⟨h1, h2⟩ := h
      simp [List.length_cons, List.take_succ_cons, h1.symm, ih xs h2]

theorem listFindIdx_append_true (l1 : List Char) (c : Char) (l2 : List Char) (p : Char → Bool)
    (h : ∀ x ∈ l1, p x = false) (hc : p c = true) :
    listFindIdx (l1 ++ c :: l2) p = some l1.length := by
  induction l1 with
  | nil => simp [listFindIdx, hc]
  | cons x xs ih =>
    have hx : p x = false := h x (List.mem_cons_self x xs)
    simp only [List.cons_append, listFindIdx, hx, Bool.false_eq_true, if_false, List.append_eq]
    rw [ih (fun y hy => h y (List.mem_cons_of_mem x hy))]
    simp [List.length_cons]

theorem countChar_digest_zero (d : String) (h : isDigestStr d = true) : countChar d '@' = 0 := by
  simp only [isDigestStr, Bool.and_eq_true] at h
  obtain ⟨h1, h2⟩ := h
  have hsplit : d.data = d.data.take 7 ++ d.data.drop 7 := (List.take_append_drop 7 d.data).symm
  have htake : d.data.take 7 = "sha256:".data := by
    have h7 : ("sha256:".data).length = 7 := rfl
    have := isPreList_take ("sha256:".data) d.data h1
    rwa [h7] at this
  rw [countChar, hsplit, List.countP_append]
  have hz1 : (d.data.take 7).countP (fun x => x == '@') = 0 := by
    rw [htake]; decide
  have hz2 : (d.data.drop 7).countP (fun x => x == '@') = 0 := by
    apply List.countP_eq_zero.mpr
    intro a ha hae
    have hx : isHexCharB a = true := by
      simp only [isHex64, strDrop, Bool.and_eq_true] at h2
      exact (List.all_eq_true.mp h2.2) a ha
    rw [beq_iff_eq] at hae
    rw [hae] at hx
    exact absurd hx (by decide)
  omega

theorem matchesStoredRefShape_append (pre d : String) (h1 : preShapeOk pre = true)
    (h2 : isDigestStr d = true) : matchesStoredRefShape (pre ++ "@" ++ d) = true := by
  simp only [preShapeOk, Bool.and_eq_true] at h1
  obtain ⟨hw, hz⟩ := h1
  have hzn : countChar pre '@' = 0 := by
    have := hz
    rwa [beq_iff_eq] at this
  have hdz : countChar d '@' = 0 := countChar_digest_zero d h2
  have hdata : (pre ++ "@" ++ d).data = pre.data ++ '@' :: d.data := by
    rw [String.data_append, String.data_append]
    simp [List.append_assoc]
  have hfree : ∀ x ∈ pre.data, (x == '@') = false := by
    intro x hx
    have := List.countP_eq_zero.mp hzn x hx
    exact Bool.not_eq_true _ ▸ (by simpa using this)
  have hcount : countChar (pre ++ "@" ++ d) '@' = 1 := by
    rw [countChar, hdata, List.countP_append, List.countP_cons]
    have : pre.data.countP (fun x => x == '@') = 0 := hzn
    rw [this]
    have : d.data.countP (fun x => x == '@') = 0 := hdz
    rw [this]
    decide
  have hfi : firstIdxOf (pre ++ "@" ++ d) '@' = some pre.data.length := by
    rw [firstIdxOf, hdata]
    exact listFindIdx_append_true pre.data '@' d.data _ hfree (by decide)
  have htake : strTake (pre ++ "@" ++ d) pre.data.length = pre := by
    apply string_data_inj
    simp only [strTake, hdata]
    exact List.take_left pre.data ('@' :: d.data)
  have hdrop : strDrop (pre ++ "@" ++ d) (pre.data.length + 1) = d := by
    apply string_data_inj
    simp only [strDrop, hdata]
    have he : pre.data ++ '@' :: d.data = (pre.data ++ ['@']) ++ d.data := by simp
    have hlen : (pre.data ++ ['@']).length = pre.data.length + 1 := by simp
    rw [he, ← hlen, List.drop_left]
  rw [matchesStoredRefShape, hfi, hcount]
  simp only [Nat.reduceBEq, Bool.true_and]
  have ht : strTake (pre ++ "@" ++ d) pre.length = pre := htake
  have hd2 : strDrop (pre ++ "@" ++ d) (pre.length + 1) = d := hdrop
  simp [ht, hd2, hw, h2]

/-! ### Loop lemmas -/

theorem runFrom_append (cfg : EngineConfig) (oracle : Oracle) (st : EngineState)
    (l1 l2 : List Artifact) :
    runFrom cfg oracle st (l1 ++ l2) =
      match runFrom cfg oracle st l1 with
      | Except.ok s => runFrom cfg oracle s l2
      | Except.error e => Except.error e := by
  induction l1 generalizing st with
  | nil => simp [runFrom]
  | cons a l1 ih =>
    simp only [List.cons_append, runFrom]
    cases hb : buildStep cfg oracle st a with
    | error e => rfl
    | ok s => exact ih s

theorem append2_ne_self (a b c : String) (hb : b.data.length ≠ 0) : a ++ b ++ c ≠ a := by
  intro h
  have hd : (a ++ b ++ c).data = a.data := by rw [h]
  rw [String.data_append, String.data_append] at hd
  have : a.data.length + b.data.length + c.data.length = a.data.length := by
    conv_rhs => rw [← hd]
    simp [List.length_append]
    omega
  omega

theorem find?_unique (l : List Build) (name : String) (b : Build) :
    b ∈ l → b.imageName = name → (∀ b' ∈ l, b'.imageName = name → b' = b) →
    l.find? (fun x => x.imageName == name) = some b := by
  intro hb hbn huniq
  induction l with
  | nil => simp at hb
  | cons p ps ih =>
    by_cases hp : p.imageName = name
    · rw [List.find?_cons_of_pos _ (by simp [hp])]
      rw [huniq p (List.mem_cons_self p ps) hp]
    · rw [List.find?_cons_of_neg _ (by simp [hp])]
      have hbps : b ∈ ps := by
        rcases List.mem_cons.mp hb with h | h
        · exact absurd (h ▸ hbn) hp
        · exact h
      exact ih hbps (fun b' hb' hn => huniq b' (List.mem_cons_of_mem p hb') hn)

theorem runFrom_induct (cfg : EngineConfig) (oracle : Oracle) (P : EngineState → Prop)
    (arts : List Artifact) :
    ∀ (st : EngineState),
      (∀ s a s', a ∈ arts → P s → buildStep cfg oracle s a = Except.ok s' → P s') →
      P st → ∀ st', runFrom cfg oracle st arts = Except.ok st' → P st' := by
  induction arts with
  | nil =>
    intro st _ hP st' h
    simp only [runFrom] at h
    injection h with h
    exact h ▸ hP
  | cons a rest ih =>
    intro st hstep hP st' h
    simp only [runFrom] at h
    cases hb : buildStep cfg oracle st a with
    | error e => rw [hb] at h; simp at h
    | ok s =>
      rw [hb] at h
      exact ih s (fun s1 a1 s1' ha1 => hstep s1 a1 s1' (List.mem_cons_of_mem a ha1))
        (hstep st a s (List.mem_cons_self a rest) hP hb) st' h

/-! ### Claims C7, C8, C9, C10 -/

/-- C7: promote-image selects the stored reference from the contract and,
when it begins with the resolved source repository prefix followed by `/`,
copies from the stored reference unchanged to the destination repository
(trailing `/` trimmed) plus the prefix-stripped remainder, preserving the
remaining tag and digest text. -/
theorem C7_promote_dest (srcRepo destRepo rest : String) (res : BuildResult)
    (imageName fullRef : String)
    (hsel : SelectTag res imageName = Except.ok fullRef)
    (hpre : fullRef = (srcRepo ++ "/") ++ rest) :
    promoteRun srcRepo destRepo res imageName =
      Except.ok (fullRef, trimSuf destRepo "/" ++ "/" ++ rest) := by
  subst hpre
  simp [promoteRun, hsel, Except.map, promoteRefs, hasPre_append, trimPre_append]

/-- C7 witness at the dev-to-pp example of the spec. -/
theorem C7_promote_dest_witness :
    promoteRun "ghcr.io/dev" "eu.gcr.io/project/pp" resW "app" =
      Except.ok ("ghcr.io/dev/app:v1@sha256:abc",
        trimSuf "eu.gcr.io/project/pp" "/" ++ "/" ++ "app:v1@sha256:abc") :=
  C7_promote_dest "ghcr.io/dev" "eu.gcr.io/project/pp" "app:v1@sha256:abc" resW "app"
    "ghcr.io/dev/app:v1@sha256:abc" rfl (by decide)

/-- C10: when the selected stored reference does not begin with the source
repository prefix, promote-image still succeeds and copies to the destination
repository plus the entire unmodified stored reference. -/
theorem C10_promote_no_strip (srcRepo destRepo : String) (res : BuildResult)
    (imageName fullRef : String)
    (hsel : SelectTag res imageName = Except.ok fullRef)
    (hpre : hasPre fullRef (srcRepo ++ "/") = false) :
    promoteRun srcRepo destRepo res imageName =
      Except.ok (fullRef, trimSuf destRepo "/" ++ "/" ++ fullRef) := by
  simp [promoteRun, hsel, Except.map, promoteRefs, hpre]

/-- C10 witness: a stored reference from a foreign registry. -/
theorem C10_promote_no_strip_witness :
    promoteRun "eu.gcr.io/pp" "dst.io" resW "app" =
      Except.ok ("ghcr.io/dev/app:v1@sha256:abc",
        trimSuf "dst.io" "/" ++ "/" ++ "ghcr.io/dev/app:v1@sha256:abc") :=
  C10_promote_no_strip "eu.gcr.io/pp" "dst.io" resW "app"
    "ghcr.io/dev/app:v1@sha256:abc" rfl (by decide)

/-- C8: SelectTag with a non-empty image name returns the tag of the entry
whose imageName matches exactly, errs with an enumeration of the available
image names when no entry matches, and with an empty image name returns the
tag of the last entry of the builds list. -/
theorem C8_select_tag :
    (∀ (res : BuildResult) (name : String) (b : Build),
      name ≠ "" → b ∈ res.builds → b.imageName = name →
      (∀ b' ∈ res.builds, b'.imageName = name → b' = b) →
      SelectTag res name = Except.ok b.tag)
    ∧ (∀ (res : BuildResult) (name : String),
      name ≠ "" → (∀ b ∈ res.builds, b.imageName ≠ name) →
      SelectTag res name = Except.error
        (SelectErr.notFound name (res.builds.map (fun b => b.imageName))))
    ∧ (∀ (res : BuildResult) (b : Build),
      res.builds.getLast? = some b → SelectTag res "" = Except.ok b.tag) := by
  refine ⟨?_, ?_, ?_⟩
  · intro res name b hne hb hbn huniq
    have hb' : (name != "") = true := bne_iff_ne.mpr hne
    rw [SelectTag, if_pos hb', GetTagForImage, find?_unique res.builds name b hb hbn huniq]
  · intro res name hne hnone
    have hb' : (name != "") = true := bne_iff_ne.mpr hne
    rw [SelectTag, if_pos hb', GetTagForImage, List.find?_eq_none.mpr ?_]
    intro b hb
    simp [hnone b hb]
  · intro res b hlast
    rw [SelectTag, if_neg (by simp), hlast]

/-- C8 witness: by-name selection, the not-found error, and the last-entry
default, on a two-entry contract. -/
theorem C8_select_tag_witness :
    SelectTag resW "app" = Except.ok "ghcr.io/dev/app:v1@sha256:abc" ∧
    SelectTag resW "nope" = Except.error
      (SelectErr.notFound "nope" (resW.builds.map (fun b => b.imageName))) ∧
    SelectTag resW "" = Except.ok "ghcr.io/dev/app:v1@sha256:abc" :=
  ⟨C8_select_tag.1 resW "app" ⟨"app", "ghcr.io/dev/app:v1@sha256:abc"⟩
      (by decide) (by decide) (by decide) (by decide),
    C8_select_tag.2.1 resW "nope" (by decide) (by decide),
    C8_select_tag.2.2 resW ⟨"app", "ghcr.io/dev/app:v1@sha256:abc"⟩ (by decide)⟩

/-- C9: in the watch-deployment poll loop, an image-query error on an
iteration never terminates the command (the iteration is skipped and polling
continues), reconcile outcomes never influence the result, and the only
errors the loop can return are the rollout failure and the poll-timeout error
naming the poll timeout, the component, and the expected version tag. -/
theorem C9_watch_poll :
    (∀ (p : WatchParams) (fullRef : String) (iters : Nat → WatchIter) (rolloutOk : Bool)
        (fuel i : Nat) (e : String),
      (iters i).image = Except.error e →
      watchLoop p fullRef iters rolloutOk (fuel + 1) i =
        watchLoop p fullRef iters rolloutOk fuel (i + 1))
    ∧ (∀ (p : WatchParams) (fullRef : String) (iters iters' : Nat → WatchIter)
        (rolloutOk : Bool) (fuel i : Nat),
      (∀ n, (iters n).image = (iters' n).image) →
      watchLoop p fullRef iters rolloutOk fuel i = watchLoop p fullRef iters' rolloutOk fuel i)
    ∧ (∀ (p : WatchParams) (fullRef : String) (iters : Nat → WatchIter) (rolloutOk : Bool)
        (fuel i : Nat) (err : WatchErr),
      watchLoop p fullRef iters rolloutOk fuel i = Except.error err →
      err = WatchErr.timedOut p.pollTimeout p.component (extractVersionTag fullRef) ∨
        err = WatchErr.rolloutFailed p.component) := by
  refine ⟨?_, ?_, ?_⟩
  · intro p fullRef iters rolloutOk fuel i e herr
    have hm : watchIterMatched fullRef (iters i) = false := by
      rw [watchIterMatched, herr]
    simp [watchLoop, hm]
  · intro p fullRef iters iters' rolloutOk fuel
    induction fuel with
    | zero =>
      intro i hsame
      have hm : watchIterMatched fullRef (iters i) = watchIterMatched fullRef (iters' i) := by
        rw [watchIterMatched, watchIterMatched, hsame i]
      simp [watchLoop, hm]
    | succ f ih =>
      intro i hsame
      have hm : watchIterMatched fullRef (iters i) = watchIterMatched fullRef (iters' i) := by
        rw [watchIterMatched, watchIterMatched, hsame i]
      simp only [watchLoop, hm]
      by_cases hmm : watchIterMatched fullRef (iters' i) = true
      · simp [hmm]
      · rw [Bool.not_eq_true] at hmm
        simp [hmm, ih (i + 1) hsame]
  · intro p fullRef iters rolloutOk fuel
    induction fuel with
    | zero =>
      intro i err h
      simp only [watchLoop] at h
      by_cases hm : watchIterMatched fullRef (iters i) = true
      · rw [if_pos hm] at h
        cases rolloutOk with
        | true => simp at h
        | false =>
          simp at h
          exact Or.inr h.symm
      · rw [Bool.not_eq_true] at hm
        rw [hm] at h
        simp at h
        exact Or.inl h.symm
    | succ f ih =>
      intro i err h
      simp only [watchLoop] at h
      by_cases hm : watchIterMatched fullRef (iters i) = true
      · rw [if_pos hm] at h
        cases rolloutOk with
        | true => simp at h
        | false =>
          simp at h
          exact Or.inr h.symm
      · rw [Bool.not_eq_true] at hm
        rw [hm] at h
        simp at h
        exact ih (i + 1) err h

/-- C9 witness: a failing first query is skipped with the poll continuing. -/
theorem C9_watch_poll_witness :
    watchLoop watchPW "ghcr.io/x/op:v1.2.3@sha256:bbb" itersW true 3 0 =
      watchLoop watchPW "ghcr.io/x/op:v1.2.3@sha256:bbb" itersW true 2 1 :=
  C9_watch_poll.1 watchPW "ghcr.io/x/op:v1.2.3@sha256:bbb" itersW true 2 0
    "connection refused" rfl

/-! ### Trace filter computations -/

theorem filterMap_some_map {α β : Type} (f : α → β) (l : List α) :
    l.filterMap (fun x => some (f x)) = l.map f := by
  induction l with
  | nil => rfl
  | cons a l ih => simp [List.filterMap_cons, ih]

theorem packTargetsFor_append (nm : String) (l1 l2 : List PushEvent) :
    packTargetsFor nm (l1 ++ l2) = packTargetsFor nm l1 ++ packTargetsFor nm l2 := by
  simp [packTargetsFor, packDispatchesFor, List.filterMap_append]

theorem packRunImagesFor_append (nm : String) (l1 l2 : List PushEvent) :
    packRunImagesFor nm (l1 ++ l2) = packRunImagesFor nm l1 ++ packRunImagesFor nm l2 := by
  simp [packRunImagesFor, packDispatchesFor, List.filterMap_append]

theorem retagEventsIn_append (l1 l2 : List PushEvent) :
    retagEventsIn (l1 ++ l2) = retagEventsIn l1 ++ retagEventsIn l2 := by
  simp [retagEventsIn, List.filter_append]

theorem packDispatchesFor_append (nm : String) (l1 l2 : List PushEvent) :
    packDispatchesFor nm (l1 ++ l2) = packDispatchesFor nm l1 ++ packDispatchesFor nm l2 := by
  simp [packDispatchesFor, List.filterMap_append]

theorem packDispatchesFor_map_self (nm : String) (f : String → PackOptions) (pls : List String) :
    packDispatchesFor nm (pls.map (fun pl => PushEvent.packDispatch nm (f pl))) = pls.map f := by
  induction pls with
  | nil => rfl
  | cons a l ih =>
    rw [packDispatchesFor] at ih ⊢
    rw [List.map_cons, List.filterMap_cons]
    simp only [beq_self_eq_true, eq_self_iff_true, if_true]
    rw [ih, List.map_cons]

theorem packDispatchesFor_bpAdded (cfg : EngineConfig) (st : EngineState) (art : Artifact)
    (builder runImage0 : String) (envs : List String) :
    packDispatchesFor art.imageName (bpAddedEvents cfg st art builder runImage0 envs) =
      (targetPlatformsOf cfg.platforms).map (fun pl =>
        bpDispatchOpts cfg (joinPath cfg.cwd art.workspace) builder
          ((envGet st.builtImages runImage0).getD runImage0) (fullTagFor cfg art.imageName)
          (overlayEnv [("BP_GO_PRIVATE", "github.com/octopilot/*")] envs)
          (targetPlatformsOf cfg.platforms) pl) := by
  simp only [bpAddedEvents]
  rw [packDispatchesFor_append, packDispatchesFor_append, packDispatchesFor_append,
    packDispatchesFor_map_self]
  by_cases h1 : 1 < (targetPlatformsOf cfg.platforms).length <;>
    by_cases h2 : (cfg.version != "") = true <;>
      simp [h1, h2, packDispatchesFor, List.filterMap_cons]

theorem packTargetsFor_bpAdded (cfg : EngineConfig) (st : EngineState) (art : Artifact)
    (builder runImage0 : String) (envs : List String) :
    packTargetsFor art.imageName (bpAddedEvents cfg st art builder runImage0 envs) =
      targetPlatformsOf cfg.platforms := by
  rw [packTargetsFor, packDispatchesFor_bpAdded]
  simp [bpDispatchOpts, Function.comp_def]

theorem packRunImagesFor_bpAdded (cfg : EngineConfig) (st : EngineState) (art : Artifact)
    (builder runImage0 : String) (envs : List String) :
    packRunImagesFor art.imageName (bpAddedEvents cfg st art builder runImage0 envs) =
      (targetPlatformsOf cfg.platforms).map (fun _ =>
        (rewriteLocalhost ((envGet st.builtImages runImage0).getD runImage0)).1) := by
  rw [packRunImagesFor, packDispatchesFor_bpAdded]
  simp [bpDispatchOpts, Function.comp_def]

theorem retagEventsIn_map_pack (nm : String) (f : String → PackOptions) (pls : List String) :
    retagEventsIn (pls.map (fun pl => PushEvent.packDispatch nm (f pl))) = [] := by
  induction pls with
  | nil => rfl
  | cons a l ih =>
    rw [retagEventsIn] at ih ⊢
    rw [List.map_cons, List.filter_cons]
    simp only [isRetagEv, Bool.false_eq_true, if_false]
    exact ih

theorem retagEventsIn_map_docker (nm : String) (g : String → String) (pls : List String) :
    retagEventsIn (pls.map (fun pl => PushEvent.dockerBuild nm pl (g pl))) = [] := by
  induction pls with
  | nil => rfl
  | cons a l ih =>
    rw [retagEventsIn] at ih ⊢
    rw [List.map_cons, List.filter_cons]
    simp only [isRetagEv, Bool.false_eq_true, if_false]
    exact ih

theorem retagEventsIn_map_poll (nm : String) (g : Build → String) (rs : List Build) :
    retagEventsIn (rs.map (fun b => PushEvent.propagationPoll nm (g b))) = [] := by
  induction rs with
  | nil => rfl
  | cons a l ih =>
    rw [retagEventsIn] at ih ⊢
    rw [List.map_cons, List.filter_cons]
    simp only [isRetagEv, Bool.false_eq_true, if_false]
    exact ih

theorem retagEventsIn_bpAdded (cfg : EngineConfig) (st : EngineState) (art : Artifact)
    (builder runImage0 : String) (envs : List String) :
    retagEventsIn (bpAddedEvents cfg st art builder runImage0 envs) =
      (if cfg.version != "" then
        [PushEvent.versionRetag art.imageName
          (trimSuf (fullTagFor cfg art.imageName) "latest" ++ cfg.version)]
      else []) := by
  simp only [bpAddedEvents]
  rw [retagEventsIn_append, retagEventsIn_append, retagEventsIn_append, retagEventsIn_map_pack]
  by_cases h1 : 1 < (targetPlatformsOf cfg.platforms).length <;>
    by_cases h2 : (cfg.version != "") = true <;>
      simp [h1, h2, retagEventsIn, List.filter_cons, isRetagEv]

theorem retagEventsIn_dockerAdded (cfg : EngineConfig) (art : Artifact) :
    retagEventsIn (dockerAddedEvents cfg art) =
      (if cfg.version != "" then
        [PushEvent.versionRetag art.imageName
          (trimSuf (dockerFullTagFor cfg art.imageName) "latest" ++ cfg.version)]
      else []) := by
  simp only [dockerAddedEvents]
  rw [retagEventsIn_append, retagEventsIn_append, retagEventsIn_append, retagEventsIn_map_docker]
  by_cases h2 : (cfg.version != "") = true <;>
    simp [h2, retagEventsIn, List.filter_cons, isRetagEv]

/-! ### Claim C4: contract write conditions -/

/-- C4: the engine writes the contract exactly when the run succeeds with at
least one built entry: a run over zero artifacts succeeds without writing a
file, any engine error means no file, a successful run writes the file iff
the built list is non-empty, and a failing artifact anywhere in the list
turns the whole run into that error. -/
theorem C4_contract_write_conditions :
    (∀ (cfg : EngineConfig) (oracle : Oracle),
      runEngine cfg oracle [] = Except.ok ⟨[], [], []⟩ ∧
        writtenContract (runEngine cfg oracle []) = none)
    ∧ (∀ (cfg : EngineConfig) (oracle : Oracle) (arts : List Artifact) (e : BuildError),
      runEngine cfg oracle arts = Except.error e →
        writtenContract (runEngine cfg oracle arts) = none)
    ∧ (∀ (cfg : EngineConfig) (oracle : Oracle) (arts : List Artifact) (st : EngineState),
      runEngine cfg oracle arts = Except.ok st →
        (writtenContract (runEngine cfg oracle arts) = some st.built ↔ st.built ≠ []))
    ∧ (∀ (cfg : EngineConfig) (oracle : Oracle) (pre : List Artifact) (art : Artifact)
        (post : List Artifact) (st1 : EngineState) (e : BuildError),
      runFrom cfg oracle ⟨[], [], []⟩ pre = Except.ok st1 →
      buildStep cfg oracle st1 art = Except.error e →
      runEngine cfg oracle (pre ++ art :: post) = Except.error e ∧
        writtenContract (runEngine cfg oracle (pre ++ art :: post)) = none) := by
  refine ⟨?_, ?_, ?_, ?_⟩
  · intro cfg oracle
    exact ⟨rfl, rfl⟩
  · intro cfg oracle arts e h
    rw [h]
    rfl
  · intro cfg oracle arts st h
    rw [h]
    show (if st.built.isEmpty then none else some st.built) = some st.built ↔ st.built ≠ []
    by_cases he : st.built = []
    · simp [he]
    · simp [List.isEmpty_iff, he]
  · intro cfg oracle pre art post st1 e h1 h2
    have herr : runEngine cfg oracle (pre ++ art :: post) = Except.error e := by
      rw [runEngine, runFrom_append, h1]
      simp only [runFrom]
      rw [h2]
    exact ⟨herr, by rw [herr]; rfl⟩

/-- C4 witness: the empty run writes nothing, a successful one-artifact run
writes its single entry, and a failing pack build fails the whole engine. -/
theorem C4_contract_write_witness :
    writtenContract (runEngine cfgW oracleW []) = none ∧
    (writtenContract (runEngine cfgW oracleW [artApp]) = some stW.built ↔ stW.built ≠ []) ∧
    runEngine cfgW oracleFail ([] ++ artApp :: []) = Except.error
      (BuildError.packFailed "app" "") :=
  ⟨(C4_contract_write_conditions.1 cfgW oracleW).2,
    C4_contract_write_conditions.2.2.1 cfgW oracleW [artApp] stW (by decide),
    (C4_contract_write_conditions.2.2.2 cfgW oracleFail [] artApp [] ⟨[], [], []⟩
      (BuildError.packFailed "app" "") (by decide) (by decide)).1⟩

/-! ### Claim C6: platform fan-out -/

/-- C6: the fan-out list is the requested platform list, or `[""]` when none
was requested; the per-platform tag is `FullTag-<sanitized platform>` exactly
when the list has more than one entry and the platform is non-empty, and
`FullTag` in every other case; and a successful non-chart buildpack step
dispatches once per entry of the fan-out list, in order, with that platform
as the dispatch target. -/
theorem C6_platform_fanout :
    (∀ ps : List String,
      (ps = [] → targetPlatformsOf ps = [""]) ∧ (ps ≠ [] → targetPlatformsOf ps = ps))
    ∧ (∀ (tps : List String) (fullTag p : String),
      bpPlatformTag tps fullTag p = fullTag ++ "-" ++ sanitizePlatform p ↔
        1 < tps.length ∧ p ≠ "")
    ∧ (∀ (tps : List String) (fullTag p : String), ¬(1 < tps.length ∧ p ≠ "") →
      bpPlatformTag tps fullTag p = fullTag)
    ∧ (∀ (cfg : EngineConfig) (oracle : Oracle) (st : EngineState) (art : Artifact)
        (builder runImage0 : String) (envs : List String) (st' : EngineState),
      art.kind = .buildpack builder runImage0 envs →
      hasSuf art.imageName "-chart" = false →
      buildStep cfg oracle st art = Except.ok st' →
      packTargetsFor art.imageName st'.events =
        packTargetsFor art.imageName st.events ++ targetPlatformsOf cfg.platforms) := by
  refine ⟨?_, ?_, ?_, ?_⟩
  · intro ps
    constructor
    · intro h; simp [targetPlatformsOf, h]
    · intro h; simp [targetPlatformsOf, List.isEmpty_iff, h]
  · intro tps fullTag p
    constructor
    · intro h
      by_contra hc
      rw [bpPlatformTag] at h
      have hcond : (decide (1 < tps.length) && (p != "")) = false := by
        rcases Decidable.not_and_iff_or_not.mp hc with hl | hp
        · simp [hl]
        · have hp' : p = "" := not_not.mp hp
          simp [hp']
      rw [hcond] at h
      simp at h
      exact append2_ne_self fullTag "-" (sanitizePlatform p) (by decide) h.symm
    · intro ⟨hl, hp⟩
      rw [bpPlatformTag]
      have hcond : (decide (1 < tps.length) && (p != "")) = true := by
        simp [hl, bne_iff_ne, hp]
      rw [hcond]
      simp
  · intro tps fullTag p hc
    rw [bpPlatformTag]
    have hcond : (decide (1 < tps.length) && (p != "")) = false := by
      rcases Decidable.not_and_iff_or_not.mp hc with hl | hp
      · simp [hl]
      · have hp' : p = "" := not_not.mp hp
        simp [hp']
    rw [hcond]
    simp
  · intro cfg oracle st art builder runImage0 envs st' hkind hcs hstep
    simp only [buildStep, hkind] at hstep
    rw [hcs] at hstep
    simp only [Bool.false_eq_true, if_false] at hstep
    obtain ⟨digest, _, _, _, hev⟩ := bpStep_ok cfg oracle st art builder runImage0 envs st' hstep
    rw [hev, packTargetsFor_append, packTargetsFor_bpAdded]

/-! ### Claim C1: contract entry shape -/

/-- C1 counterexample: a single-platform docker artifact is delegated to the
Skaffold runner, whose returned tag is recorded verbatim; when the runner
returns an undigested tag, the successfully written contract has an entry
with no `@` at all, refuting the claim as stated. -/
theorem C1_counterexample :
    writtenContract runDeleg = some [⟨"app", "reg.io/app:latest"⟩] ∧
    countChar "reg.io/app:latest" '@' = 0 ∧
    matchesStoredRefShape "reg.io/app:latest" = false := by
  refine ⟨by decide, by decide, by decide⟩

/-- C1 (amended): every entry of a successfully written contract matches
`<registry>/<path>:<tag>@sha256:<hex64>` with exactly one `@` provided the
externally supplied pieces are well-formed: registry digests have sha256
shape, every artifact's full tag is a well-formed `@`-free tag reference, and
the verbatim-recorded values (delegated runner tags, chart ref files) already
match the stored-reference shape. -/
theorem C1_contract_shape_amended (cfg : EngineConfig) (oracle : Oracle) (arts : List Artifact)
    (st : EngineState)
    (hHead : ∀ t dg, oracle.headDigest t = some dg → isDigestStr dg = true)
    (hIdx : ∀ t, isDigestStr (oracle.indexDigest t) = true)
    (hChart : ∀ nm c, oracle.chartRef nm = some c → matchesStoredRefShape (trimSpace c) = true)
    (hRunner : ∀ nm bs, oracle.runnerResult nm = Except.ok bs →
      ∀ b ∈ bs, matchesStoredRefShape b.tag = true)
    (hTags : ∀ a ∈ arts, preShapeOk (fullTagFor cfg a.imageName) = true ∧
      preShapeOk (dockerFullTagFor cfg a.imageName) = true)
    (hrun : runEngine cfg oracle arts = Except.ok st) :
    ∀ b ∈ st.built, matchesStoredRefShape b.tag = true := by
  refine runFrom_induct cfg oracle
    (fun s => ∀ b ∈ s.built, matchesStoredRefShape b.tag = true) arts ⟨[], [], []⟩
    ?_ (by intro b hb; simp at hb) st hrun
  intro s a s' ha hP hstep b hb
  simp only [buildStep] at hstep
  split at hstep
  next builder runImage0 envs hk =>
    split at hstep
    next hcs =>
      obtain ⟨content, hc, hst⟩ := chartStep_ok _ _ _ _ _ _ _ _ hstep
      have hbuilt : s'.built = s.built ++ [⟨a.imageName, trimSpace content⟩] := by rw [hst]
      rw [hbuilt] at hb
      rcases List.mem_append.mp hb with hb | hb
      · exact hP b hb
      · rw [List.mem_singleton.mp hb]
        exact hChart a.imageName content hc
    next hcs =>
      obtain ⟨digest, hd, hbuilt, _, _⟩ := bpStep_ok _ _ _ _ _ _ _ _ hstep
      rw [hbuilt] at hb
      rcases List.mem_append.mp hb with hb | hb
      · exact hP b hb
      · rw [List.mem_singleton.mp hb]
        have hpre := (hTags a ha).1
        rcases hd with hd | hd
        · exact matchesStoredRefShape_append _ _ hpre (hHead _ _ hd)
        · rw [hd]
          exact matchesStoredRefShape_append _ _ hpre (hIdx _)
  next d hk =>
    split at hstep
    · obtain ⟨hbuilt, _, _⟩ := dockerStep_ok _ _ _ _ _ hstep
      rw [hbuilt] at hb
      rcases List.mem_append.mp hb with hb | hb
      · exact hP b hb
      · rw [List.mem_singleton.mp hb]
        exact matchesStoredRefShape_append _ _ (hTags a ha).2 (hIdx _)
    · obtain ⟨results, hr, hbuilt, _, _⟩ := delegateStep_ok _ _ _ _ hstep
      rw [hbuilt] at hb
      rcases List.mem_append.mp hb with hb | hb
      · exact hP b hb
      · exact hRunner a.imageName results hr b hb
  next hk =>
    obtain ⟨results, hr, hbuilt, _, _⟩ := delegateStep_ok _ _ _ _ hstep
    rw [hbuilt] at hb
    rcases List.mem_append.mp hb with hb | hb
    · exact hP b hb
    · exact hRunner a.imageName results hr b hb

/-- C1 witness: the entry of a concrete successful buildpack run matches the
stored-reference shape, via the amended theorem. -/
theorem C1_contract_shape_witness :
    matchesStoredRefShape ("reg.io/app:latest@" ++ dgA) = true :=
  C1_contract_shape_amended cfgW oracleW [artApp] stW
    (fun t dg h => by
      injection h with h
      rw [← h]
      decide)
    (fun t => by
      change isDigestStr dgA = true
      decide)
    (fun nm c h => Option.noConfusion h)
    (fun nm bs h => Except.noConfusion h)
    (by
      intro a ha
      rw [List.mem_singleton] at ha
      subst ha
      exact ⟨by decide, by decide⟩)
    (by decide)
    ⟨"app", "reg.io/app:latest@" ++ dgA⟩ (by decide)

/-! ### Claim C2: run-image resolution -/

theorem builtImages_subset_built (cfg : EngineConfig) (oracle : Oracle) (arts : List Artifact)
    (st : EngineState) (hrun : runEngine cfg oracle arts = Except.ok st) :
    ∀ n t, envGet st.builtImages n = some t → Build.mk n t ∈ st.built := by
  refine runFrom_induct cfg oracle
    (fun s => ∀ n t, envGet s.builtImages n = some t → Build.mk n t ∈ s.built) arts ⟨[], [], []⟩
    ?_ (by intro n t h; simp [envGet] at h) st hrun
  intro s a s' ha hP hstep n t h
  simp only [buildStep] at hstep
  split at hstep
  next builder runImage0 envs hk =>
    split at hstep
    next hcs =>
      obtain ⟨content, hc, hst⟩ := chartStep_ok _ _ _ _ _ _ _ _ hstep
      have hbuilt : s'.built = s.built ++ [⟨a.imageName, trimSpace content⟩] := by rw [hst]
      have hbi : s'.builtImages = envSet s.builtImages a.imageName (trimSpace content) := by
        rw [hst]
      rw [hbuilt]
      rw [hbi, envGet_envSet] at h
      by_cases hn : n = a.imageName
      · rw [if_pos hn] at h
        injection h with h
        subst hn
        subst h
        simp
      · rw [if_neg hn] at h
        exact List.mem_append_left _ (hP n t h)
    next hcs =>
      obtain ⟨digest, hd, hbuilt, hbi, hev⟩ := bpStep_ok _ _ _ _ _ _ _ _ hstep
      rw [hbuilt]
      rw [hbi, envGet_envSet] at h
      by_cases hn : n = a.imageName
      · rw [if_pos hn] at h
        injection h with h
        subst hn
        subst h
        simp
      · rw [if_neg hn] at h
        exact List.mem_append_left _ (hP n t h)
  next d hk =>
    split at hstep
    · obtain ⟨hbuilt, hbi, hev⟩ := dockerStep_ok _ _ _ _ _ hstep
      rw [hbuilt]
      rw [hbi, envGet_envSet] at h
      by_cases hn : n = a.imageName
      · rw [if_pos hn] at h
        injection h with h
        subst hn
        subst h
        simp
      · rw [if_neg hn] at h
        exact List.mem_append_left _ (hP n t h)
    · obtain ⟨results, hr, hbuilt, hbi, hev⟩ := delegateStep_ok _ _ _ _ hstep
      rw [hbuilt]
      rw [hbi] at h
      rcases envGet_foldl_envSet results s.builtImages n t h with h' | ⟨b, hb, hn, ht⟩
      · exact List.mem_append_left _ (hP n t h')
      · subst hn
        subst ht
        exact List.mem_append_right _ hb
  next hk =>
    obtain ⟨results, hr, hbuilt, hbi, hev⟩ := delegateStep_ok _ _ _ _ hstep
    rw [hbuilt]
    rw [hbi] at h
    rcases envGet_foldl_envSet results s.builtImages n t h with h' | ⟨b, hb, hn, ht⟩
    · exact List.mem_append_left _ (hP n t h')
    · subst hn
      subst ht
      exact List.mem_append_right _ hb

/-- C2 counterexample: when the built-images map stores a digest-pinned
reference on the loopback registry, the dispatched run-image value is the
localhost-rewritten string, not the stored reference itself, refuting the
claim as stated. -/
theorem C2_counterexample :
    envGet stLocalBase.builtImages "base" = some ("localhost:5001/base:latest@" ++ dgA) ∧
    buildStep cfgLocal oracleW stLocalBase artAppOnBase = Except.ok stLocalApp ∧
    packRunImagesFor "app" stLocalApp.events = ["127.0.0.1:5001/base:latest@" ++ dgA] ∧
    ("127.0.0.1:5001/base:latest@" ++ dgA) ≠ ("localhost:5001/base:latest@" ++ dgA) := by
  refine ⟨by decide, by decide, by decide, by decide⟩

/-- C2 (amended): when an artifact's run_image names an entry of the
built-images map, every pack dispatch for that artifact carries the stored
digest-pinned reference as its run-image value — subject, on the non-chart
path, to the localhost:5001 dispatch rewrite (chart dispatches carry it
verbatim) — and the built-images map is coherent with the contract: every
mapping appears as a contract entry. -/
theorem C2_run_image_amended :
    (∀ (cfg : EngineConfig) (oracle : Oracle) (st : EngineState) (art : Artifact)
        (builder runImage0 : String) (envs : List String) (st' : EngineState) (r : String),
      art.kind = .buildpack builder runImage0 envs →
      hasSuf art.imageName "-chart" = false →
      envGet st.builtImages runImage0 = some r →
      buildStep cfg oracle st art = Except.ok st' →
      packRunImagesFor art.imageName st'.events =
        packRunImagesFor art.imageName st.events ++
          (targetPlatformsOf cfg.platforms).map (fun _ => (rewriteLocalhost r).1))
    ∧ (∀ (cfg : EngineConfig) (oracle : Oracle) (st : EngineState) (art : Artifact)
        (builder runImage0 : String) (envs : List String) (st' : EngineState) (r : String),
      art.kind = .buildpack builder runImage0 envs →
      hasSuf art.imageName "-chart" = true →
      envGet st.builtImages runImage0 = some r →
      buildStep cfg oracle st art = Except.ok st' →
      packRunImagesFor art.imageName st'.events =
        packRunImagesFor art.imageName st.events ++ [r])
    ∧ (∀ (cfg : EngineConfig) (oracle : Oracle) (arts : List Artifact) (st : EngineState),
      runEngine cfg oracle arts = Except.ok st →
      ∀ n t, envGet st.builtImages n = some t → Build.mk n t ∈ st.built) := by
  refine ⟨?_, ?_, builtImages_subset_built⟩
  · intro cfg oracle st art builder runImage0 envs st' r hkind hcs hlook hstep
    simp only [buildStep, hkind, hcs, Bool.false_eq_true, if_false] at hstep
    obtain ⟨digest, _, _, _, hev⟩ := bpStep_ok _ _ _ _ _ _ _ _ hstep
    rw [hev, packRunImagesFor_append, packRunImagesFor_bpAdded, hlook]
    simp [Option.getD_some]
  · intro cfg oracle st art builder runImage0 envs st' r hkind hcs hlook hstep
    simp only [buildStep, hkind, hcs, eq_self_iff_true, if_true] at hstep
    obtain ⟨content, hc, hst⟩ := chartStep_ok _ _ _ _ _ _ _ _ hstep
    have hev : st'.events = st.events ++ [PushEvent.packDispatch art.imageName
        (chartPackOpts cfg oracle st art builder runImage0 envs)] := by rw [hst]
    rw [hev, packRunImagesFor_append]
    congr 1
    simp [packRunImagesFor, packDispatchesFor, List.filterMap_cons, chartPackOpts, hlook]

/-- C2 witness: the loopback two-artifact run, where the dispatch for `app`
carries the rewritten stored reference of `base`. -/
theorem C2_run_image_witness :
    packRunImagesFor "app" stLocalApp.events =
      packRunImagesFor "app" stLocalBase.events ++
        (targetPlatformsOf cfgLocal.platforms).map (fun _ =>
          (rewriteLocalhost ("localhost:5001/base:latest@" ++ dgA)).1) :=
  C2_run_image_amended.1 cfgLocal oracleW stLocalBase artAppOnBase "bldr" "base" [] stLocalApp
    ("localhost:5001/base:latest@" ++ dgA) rfl (by decide) (by decide) (by decide)

/-! ### Claim C3: version re-tagging -/

/-- C3 counterexample: a canonical version captured from `VERSION` (with
`DOCKER_METADATA_OUTPUT_VERSION` unset) does not trigger any version re-tag
on a successful buildpack push, refuting the claim that the re-tag happens
exactly when a canonical version was captured regardless of which scanned
variable supplied it. -/
theorem C3_counterexample :
    capturedVersion envV = "v1.2.3" ∧
    retagEventsIn (eventsOf runEnvV) = [] ∧
    writtenContract runEnvV = some [⟨"app", "reg.io/app:latest@" ++ dgA⟩] := by
  refine ⟨by decide, by decide, by decide⟩

/-- C3 (amended): a successful engine step emits a version re-tag exactly
when the post-sanitation `DOCKER_METADATA_OUTPUT_VERSION` is non-empty and
the artifact is built on a direct (non-chart buildpack or multi-arch docker)
path; the version tag is the direct full tag with a trailing `latest`
stripped and that value appended. A canonical version captured from any
other scanned variable does not trigger re-tagging, and chart or delegated
artifacts are never re-tagged. -/
theorem C3_version_retag_amended (cfg0 : EngineConfig) (env : List (String × String))
    (oracle : Oracle) (st : EngineState) (art : Artifact) (st' : EngineState)
    (hstep : buildStep (cfgFromEnv cfg0 env) oracle st art = Except.ok st') :
    retagEventsIn st'.events = retagEventsIn st.events ++
      (if sanitizedDockerVersion env != "" && isDirectPath (cfgFromEnv cfg0 env) art then
        [PushEvent.versionRetag art.imageName
          (trimSuf (directFullTag (cfgFromEnv cfg0 env) art) "latest"
            ++ sanitizedDockerVersion env)]
      else []) := by
  have hv : (cfgFromEnv cfg0 env).version = sanitizedDockerVersion env := by
    simp [cfgFromEnv, sanitizedDockerVersion]
  simp only [buildStep] at hstep
  split at hstep
  next builder runImage0 envs hk =>
    split at hstep
    next hcs =>
      obtain ⟨content, hc, hst⟩ := chartStep_ok _ _ _ _ _ _ _ _ hstep
      have hev : st'.events = st.events ++ [PushEvent.packDispatch art.imageName
          (chartPackOpts (cfgFromEnv cfg0 env) oracle st art builder runImage0 envs)] := by
        rw [hst]
      have hdp : isDirectPath (cfgFromEnv cfg0 env) art = false := by
        rw [isDirectPath, hk]
        simp [hcs]
      rw [hev, retagEventsIn_append, hdp]
      simp [retagEventsIn, List.filter_cons, isRetagEv]
    next hcs =>
      obtain ⟨digest, _, _, _, hev⟩ := bpStep_ok _ _ _ _ _ _ _ _ hstep
      have hdp : isDirectPath (cfgFromEnv cfg0 env) art = true := by
        rw [isDirectPath, hk]
        rw [Bool.not_eq_true] at hcs
        simp [hcs]
      have hft : directFullTag (cfgFromEnv cfg0 env) art =
          fullTagFor (cfgFromEnv cfg0 env) art.imageName := by
        rw [directFullTag, hk]
      rw [hev, retagEventsIn_append, retagEventsIn_bpAdded, hv, hdp, hft, Bool.and_true]
  next d hk =>
    split at hstep
    next hcond =>
      obtain ⟨_, _, hev⟩ := dockerStep_ok _ _ _ _ _ hstep
      have hdp : isDirectPath (cfgFromEnv cfg0 env) art = true := by
        rw [isDirectPath, hk]
        exact hcond
      have hft : directFullTag (cfgFromEnv cfg0 env) art =
          dockerFullTagFor (cfgFromEnv cfg0 env) art.imageName := by
        rw [directFullTag, hk]
      rw [hev, retagEventsIn_append, retagEventsIn_dockerAdded, hv, hdp, hft, Bool.and_true]
    next hcond =>
      obtain ⟨results, hr, _, _, hev⟩ := delegateStep_ok _ _ _ _ hstep
      have hdp : isDirectPath (cfgFromEnv cfg0 env) art = false := by
        rw [isDirectPath, hk]
        rw [Bool.not_eq_true] at hcond
        exact hcond
      rw [hev, retagEventsIn_append, retagEventsIn_append, retagEventsIn_map_poll, hdp]
      simp [retagEventsIn, List.filter_cons, isRetagEv]
  next hk =>
    obtain ⟨results, hr, _, _, hev⟩ := delegateStep_ok _ _ _ _ hstep
    have hdp : isDirectPath (cfgFromEnv cfg0 env) art = false := by
      rw [isDirectPath, hk]
    rw [hev, retagEventsIn_append, retagEventsIn_append, retagEventsIn_map_poll, hdp]
    simp [retagEventsIn, List.filter_cons, isRetagEv]

/-- C3 witness: under a platform-suffixed `DOCKER_METADATA_OUTPUT_VERSION`,
the buildpack step re-tags with the sanitized version. -/
theorem C3_version_retag_witness :
    retagEventsIn stD.events = retagEventsIn (⟨[], [], []⟩ : EngineState).events ++
      (if sanitizedDockerVersion envD != "" && isDirectPath (cfgFromEnv cfgW envD) artApp then
        [PushEvent.versionRetag artApp.imageName
          (trimSuf (directFullTag (cfgFromEnv cfgW envD) artApp) "latest"
            ++ sanitizedDockerVersion envD)]
      else []) :=
  C3_version_retag_amended cfgW envD oracleW ⟨[], [], []⟩ artApp stD (by decide)

/-! ### Claim C5: chart artifact flow -/

/-- C5 counterexample: an artifact-declared `BP_HELM_OCI_REF` env entry
overlays the engine-computed helm OCI ref, so the chart dispatch does not
carry FullTag with the trailing tag stripped, refuting the claim as stated. -/
theorem C5_counterexample :
    (packDispatchesFor "x-chart" (eventsOf runChartEvil)).map
        (fun po => envGet po.env "BP_HELM_OCI_REF") = [some "oci://evil"] ∧
    stripAfterLastColon (fullTagFor cfgW "x-chart") = "reg.io/x-chart" ∧
    some ("oci://evil" : String) ≠ some ("reg.io/x-chart" : String) ∧
    writtenContract runChartEvil =
      some [⟨"x-chart", "reg.io/charts/my-chart:1.2.3@" ++ dgA⟩] := by
  refine ⟨by decide, by decide, by decide, by decide⟩

/-- C5 (amended): for a chart artifact the engine dispatches the backend
exactly once with `publish=false` and the helm OCI ref defaulting to FullTag
with the trailing `:tag` stripped (overridable by an artifact-declared
`BP_HELM_OCI_REF` env entry, since artifact env overlays the engine-set
defaults), records as the contract entry exactly the whitespace-trimmed ref
file contents, and emits no manifest-list write and no propagation poll. -/
theorem C5_chart_flow_amended (cfg : EngineConfig) (oracle : Oracle) (st : EngineState)
    (art : Artifact) (builder runImage0 : String) (envs : List String) (content : String)
    (hkind : art.kind = .buildpack builder runImage0 envs)
    (hchart : hasSuf art.imageName "-chart" = true)
    (hok : oracle.packOk (chartPackOpts cfg oracle st art builder runImage0 envs) = true)
    (hcr : oracle.chartRef art.imageName = some content) :
    (chartPackOpts cfg oracle st art builder runImage0 envs).publish = false ∧
    (declaresKey envs "BP_HELM_OCI_REF" = false →
      envGet (chartPackOpts cfg oracle st art builder runImage0 envs).env "BP_HELM_OCI_REF" =
        some (stripAfterLastColon (fullTagFor cfg art.imageName))) ∧
    buildStep cfg oracle st art = Except.ok
      { built := st.built ++ [⟨art.imageName, trimSpace content⟩],
        builtImages := envSet st.builtImages art.imageName (trimSpace content),
        events := st.events ++ [PushEvent.packDispatch art.imageName
          (chartPackOpts cfg oracle st art builder runImage0 envs)] } := by
  refine ⟨rfl, ?_, ?_⟩
  · intro hnd
    show envGet (overlayEnv [("BP_GO_PRIVATE", "github.com/octopilot/*"),
        ("BP_HELM_OCI_REF", stripAfterLastColon (fullTagFor cfg art.imageName)),
        ("BP_HELM_OCI_OUTPUT", "/out")] envs) "BP_HELM_OCI_REF" =
      some (stripAfterLastColon (fullTagFor cfg art.imageName))
    rw [overlayEnv_not_declared envs _ _ hnd]
    have h1 : (("BP_GO_PRIVATE" : String) == "BP_HELM_OCI_REF") = false := by decide
    have h2 : (("BP_HELM_OCI_REF" : String) == "BP_HELM_OCI_REF") = true := by decide
    simp [envGet, h1, h2]
  · simp only [buildStep, hkind, hchart, eq_self_iff_true, if_true]
    simp only [chartStep, hok, if_true, hcr]

/-- C5 witness: the full chart flow on a concrete artifact without env
overrides. -/
theorem C5_chart_flow_witness :
    (chartPackOpts cfgW oracleChartW ⟨[], [], []⟩ artChart "bldr" "" []).publish = false ∧
    envGet (chartPackOpts cfgW oracleChartW ⟨[], [], []⟩ artChart "bldr" "" []).env
        "BP_HELM_OCI_REF" = some (stripAfterLastColon (fullTagFor cfgW artChart.imageName)) ∧
    buildStep cfgW oracleChartW ⟨[], [], []⟩ artChart = Except.ok
      { built := ([] : List Build) ++ [⟨artChart.imageName, trimSpace chartContentW⟩],
        builtImages := envSet [] artChart.imageName (trimSpace chartContentW),
        events := ([] : List PushEvent) ++ [PushEvent.packDispatch artChart.imageName
          (chartPackOpts cfgW oracleChartW ⟨[], [], []⟩ artChart "bldr" "" [])] } := by
  have h := C5_chart_flow_amended cfgW oracleChartW ⟨[], [], []⟩ artChart "bldr" "" []
    chartContentW rfl (by decide) rfl rfl
  exact ⟨h.1, h.2.1 (by decide), h.2.2⟩

/-- C6 witness: fan-out and per-platform tags at concrete values, and the
dispatch targets of a concrete one-artifact run. -/
theorem C6_platform_fanout_witness :
    bpPlatformTag ["linux/amd64", "linux/arm64"] "reg.io/app:latest" "linux/arm64" =
      "reg.io/app:latest" ++ "-" ++ sanitizePlatform "linux/arm64" ∧
    bpPlatformTag [""] "reg.io/app:latest" "" = "reg.io/app:latest" ∧
    targetPlatformsOf [] = [""] ∧
    packTargetsFor "app" stW.events =
      packTargetsFor "app" (⟨[], [], []⟩ : EngineState).events ++ targetPlatformsOf cfgW.platforms :=
  ⟨(C6_platform_fanout.2.1 ["linux/amd64", "linux/arm64"] "reg.io/app:latest" "linux/arm64").mpr
      (by decide),
    C6_platform_fanout.2.2.1 [""] "reg.io/app:latest" "" (by decide),
    (C6_platform_fanout.1 []).1 rfl,
    C6_platform_fanout.2.2.2 cfgW oracleW ⟨[], [], []⟩ artApp "bldr" "" [] stW rfl (by decide)
      (by decide)⟩

end OP
